import Mathlib

/-!
Verification of the OpenAI chat/completion adapter
(`llm/default_plugins/openai_models.py`).

The Python code manipulates JSON-like data: dicts with string keys
(insertion-ordered), lists, strings, numbers, booleans and `None`.  We model
these values with the nested inductive type `JVal`.  Python dicts are modelled
as ordered association lists, which preserves both key order and the in-place
`d[k] = v` update semantics of the source.  Numbers are carried as their
literal text (`jnum "5"`); no claim depends on numeric arithmetic.

Python exceptions are modelled with `Option`/`Except`: `none`/`.error e`
means the corresponding Python expression raises.
-/

inductive JVal where
  | jnull
  | jbool (b : Bool)
  | jnum (lit : String)
  | jstr (s : String)
  | jarr (elems : List JVal)
  | jobj (fields : List (String × JVal))
  deriving Repr

open JVal

mutual

def jeq : JVal → JVal → Bool
  | jnull, jnull => true
  | jbool a, jbool b => a == b
  | jnum a, jnum b => a == b
  | jstr a, jstr b => a == b
  | jarr a, jarr b => jeqList a b
  | jobj a, jobj b => jeqFields a b
  | _, _ => false

def jeqList : List JVal → List JVal → Bool
  | [], [] => true
  | a :: as, b :: bs => jeq a b && jeqList as bs
  | _, _ => false

def jeqFields : List (String × JVal) → List (String × JVal) → Bool
  | [], [] => true
  | (k, v) :: as, (k', v') :: bs => k == k' && jeq v v' && jeqFields as bs
  | _, _ => false

end

mutual

theorem jeq_iff : ∀ a b, jeq a b = true ↔ a = b
  | jnull, jnull => by simp [jeq]
  | jnull, jbool _ => by simp [jeq]
  | jnull, jnum _ => by simp [jeq]
  | jnull, jstr _ => by simp [jeq]
  | jnull, jarr _ => by simp [jeq]
  | jnull, jobj _ => by simp [jeq]
  | jbool _, jnull => by simp [jeq]
  | jbool _, jbool _ => by simp [jeq]
  | jbool _, jnum _ => by simp [jeq]
  | jbool _, jstr _ => by simp [jeq]
  | jbool _, jarr _ => by simp [jeq]
  | jbool _, jobj _ => by simp [jeq]
  | jnum _, jnull => by simp [jeq]
  | jnum _, jbool _ => by simp [jeq]
  | jnum _, jnum _ => by simp [jeq]
  | jnum _, jstr _ => by simp [jeq]
  | jnum _, jarr _ => by simp [jeq]
  | jnum _, jobj _ => by simp [jeq]
  | jstr _, jnull => by simp [jeq]
  | jstr _, jbool _ => by simp [jeq]
  | jstr _, jnum _ => by simp [jeq]
  | jstr _, jstr _ => by simp [jeq]
  | jstr _, jarr _ => by simp [jeq]
  | jstr _, jobj _ => by simp [jeq]
  | jarr _, jnull => by simp [jeq]
  | jarr _, jbool _ => by simp [jeq]
  | jarr _, jnum _ => by simp [jeq]
  | jarr _, jstr _ => by simp [jeq]
  | jarr a, jarr b => by simp [jeq, jeqList_iff a b]
  | jarr _, jobj _ => by simp [jeq]
  | jobj _, jnull => by simp [jeq]
  | jobj _, jbool _ => by simp [jeq]
  | jobj _, jnum _ => by simp [jeq]
  | jobj _, jstr _ => by simp [jeq]
  | jobj _, jarr _ => by simp [jeq]
  | jobj a, jobj b => by simp [jeq, jeqFields_iff a b]

theorem jeqList_iff : ∀ a b, jeqList a b = true ↔ a = b
  | [], [] => by simp [jeqList]
  | [], _ :: _ => by simp [jeqList]
  | _ :: _, [] => by simp [jeqList]
  | a :: as, b :: bs => by simp [jeqList, jeq_iff a b, jeqList_iff as bs]

theorem jeqFields_iff : ∀ a b, jeqFields a b = true ↔ a = b
  | [], [] => by simp [jeqFields]
  | [], _ :: _ => by simp [jeqFields]
  | _ :: _, [] => by simp [jeqFields]
  | (k, v) :: as, (k', v') :: bs => by
    simp [jeqFields, jeq_iff v v', jeqFields_iff as bs]

end

instance : DecidableEq JVal := fun a b => decidable_of_iff (jeq a b = true) (jeq_iff a b)

/-! Association-list operations mirroring Python dict primitives
(first-occurrence lookup; every dict built by the source has unique keys). -/

/-- Python `d[k]` / `d.get(k)`: value at the first occurrence of key `k`. -/
def dlookup (l : List (String × JVal)) (k : String) : Option JVal :=
  match l with
  | [] => none
  | (k', v) :: rest => if k' = k then some v else dlookup rest k

/-- Python `k in d`. -/
def hasKey (l : List (String × JVal)) (k : String) : Bool :=
  match l with
  | [] => false
  | (k', _) :: rest => k' = k || hasKey rest k

/-- Python `d[k] = v`: replace the value at the first occurrence of `k` in
place, else append a new entry (matching dict insertion-order semantics). -/
def dset (l : List (String × JVal)) (k : String) (v : JVal) : List (String × JVal) :=
  match l with
  | [] => [(k, v)]
  | (k', v') :: rest => if k' = k then (k', v) :: rest else (k', v') :: dset rest k v

/-- Python `d.pop(k, None)` restricted to dropping the entry. -/
def dremove (l : List (String × JVal)) (k : String) : List (String × JVal) :=
  match l with
  | [] => []
  | (k', v') :: rest => if k' = k then rest else (k', v') :: dremove rest k

/-- Python `d.pop(k)`: the removed value and the remaining dict, or `none`
when the key is missing (a `KeyError`). -/
def dpop (l : List (String × JVal)) (k : String) : Option (JVal × List (String × JVal)) :=
  match l with
  | [] => none
  | (k', v') :: rest =>
    if k' = k then some (v', rest)
    else (dpop rest k).map (fun p => (p.1, (k', v') :: p.2))

/-- Python `s.startswith(p)`. -/
def pyStartsWith (s p : String) : Bool :=
  p.toList.isPrefixOf s.toList

/-- Python truthiness of an optional string (`None` and `""` are falsy). -/
def pyTruthyOptStr : Option String → Bool
  | none => false
  | some s => !s.isEmpty

/-- Python truthiness of a JSON-like value (`None`, `False`, `0`, `""`, `[]`
and an empty dict are falsy). -/
def pyTruthy : JVal → Bool
  | jnull => false
  | jbool b => b
  | jnum lit => !(lit = "0" || lit = "-0" || lit = "0.0" || lit = "-0.0")
  | jstr s => !s.isEmpty
  | jarr l => !l.isEmpty
  | jobj f => !f.isEmpty

/-! Basic lemmas about the dict operations. -/

theorem dlookup_dset_self (l : List (String × JVal)) (k : String) (v : JVal) :
    dlookup (dset l k v) k = some v := by
  induction l with
  | nil => simp [dset, dlookup]
  | cons hd tl ih =>
    obtain ⟨k', v'⟩ := hd
    by_cases h : k' = k <;> simp [dset, dlookup, h, ih]

theorem dlookup_dset_ne (l : List (String × JVal)) (k k' : String) (v : JVal)
    (h : k' ≠ k) : dlookup (dset l k v) k' = dlookup l k' := by
  induction l with
  | nil => simp [dset, dlookup, Ne.symm h]
  | cons hd tl ih =>
    obtain ⟨k₁, v₁⟩ := hd
    by_cases h₁ : k₁ = k <;> by_cases h₂ : k₁ = k' <;>
      simp_all [dset, dlookup]

theorem dset_dset_self (l : List (String × JVal)) (k : String) (v : JVal) :
    dset (dset l k v) k v = dset l k v := by
  induction l with
  | nil => simp [dset]
  | cons hd tl ih =>
    obtain ⟨k', v'⟩ := hd
    by_cases h : k' = k <;> simp [dset, h, ih]

theorem hasKey_dset (l : List (String × JVal)) (k k' : String) (v : JVal) :
    hasKey (dset l k v) k' = (k = k' || hasKey l k') := by
  induction l with
  | nil => simp [dset, hasKey]
  | cons hd tl ih =>
    obtain ⟨k₁, v₁⟩ := hd
    by_cases h : k₁ = k <;> by_cases h₂ : k₁ = k' <;>
      simp_all [dset, hasKey]

theorem dpop_eq_none_iff (l : List (String × JVal)) (k : String) :
    dpop l k = none ↔ hasKey l k = false := by
  induction l with
  | nil => simp [dpop, hasKey]
  | cons hd tl ih =>
    obtain ⟨k', v'⟩ := hd
    by_cases h : k' = k
    · simp [dpop, hasKey, h]
    · have hstep : dpop ((k', v') :: tl) k
          = (dpop tl k).map (fun p => (p.1, (k', v') :: p.2)) := by
        simp [dpop, h]
      rw [hstep]
      simp [h, Option.map_eq_none', ih, hasKey]

theorem hasKey_dpop_ne (l : List (String × JVal)) (k k' : String)
    (v : JVal) (r : List (String × JVal))
    (hpop : dpop l k = some (v, r)) (hne : k' ≠ k) :
    hasKey r k' = hasKey l k' := by
  induction l generalizing r with
  | nil => simp [dpop] at hpop
  | cons hd tl ih =>
    obtain ⟨k₁, v₁⟩ := hd
    by_cases h : k₁ = k
    · subst h
      simp only [dpop, if_pos rfl, Option.some.injEq, Prod.mk.injEq] at hpop
      obtain ⟨_, rfl⟩ := hpop
      simp [hasKey, Ne.symm hne]
    · have hstep : dpop ((k₁, v₁) :: tl) k
          = (dpop tl k).map (fun p => (p.1, (k₁, v₁) :: p.2)) := by
        simp [dpop, h]
      rw [hstep] at hpop
      cases hp : dpop tl k with
      | none => rw [hp] at hpop; simp at hpop
      | some p =>
        obtain ⟨pv, pr⟩ := p
        rw [hp] at hpop
        simp only [Option.map_some', Option.some.injEq, Prod.mk.injEq] at hpop
        obtain ⟨h1, rfl⟩ := hpop
        subst h1
        simp [hasKey, ih pr hp]

/-! A model of Python `json.loads` (used by the source at tool-call
finalization) and `json.dumps` (used when serializing prior tool calls).
The parser follows the JSON grammar accepted by Python's `json` module:
optional whitespace, objects, arrays, double-quoted strings with escapes,
`true`/`false`/`null`, and numbers `-?(0|[1-9][0-9]*)(\.[0-9]+)?([eE][+-]?[0-9]+)?`.
Numbers are kept as their lexeme.  Recursion is bounded by fuel; the entry
point supplies more fuel than any input can consume. -/

def isJsonWs (c : Char) : Bool :=
  c = ' ' || c = Char.ofNat 9 || c = Char.ofNat 10 || c = Char.ofNat 13

def skipWs : List Char → List Char
  | [] => []
  | c :: rest => if isJsonWs c then skipWs rest else c :: rest

def hexVal (c : Char) : Option Nat :=
  if 48 ≤ c.toNat ∧ c.toNat ≤ 57 then some (c.toNat - 48)
  else if 97 ≤ c.toNat ∧ c.toNat ≤ 102 then some (c.toNat - 87)
  else if 65 ≤ c.toNat ∧ c.toNat ≤ 70 then some (c.toNat - 55)
  else none

/-- Parse the body of a JSON string (after the opening quote), returning the
decoded characters and the input remaining after the closing quote.
Raw control characters are rejected (strict mode). -/
def parseStringBody : List Char → Option (List Char × List Char)
  | [] => none
  | c :: rest =>
    if c = '"' then some ([], rest)
    else if c = '\\' then
      match rest with
      | [] => none
      | e :: rest2 =>
        if e = '"' ∨ e = '\\' ∨ e = '/' then
          (parseStringBody rest2).map (fun p => (e :: p.1, p.2))
        else if e = 'b' then
          (parseStringBody rest2).map (fun p => (Char.ofNat 8 :: p.1, p.2))
        else if e = 'f' then
          (parseStringBody rest2).map (fun p => (Char.ofNat 12 :: p.1, p.2))
        else if e = 'n' then
          (parseStringBody rest2).map (fun p => (Char.ofNat 10 :: p.1, p.2))
        else if e = 'r' then
          (parseStringBody rest2).map (fun p => (Char.ofNat 13 :: p.1, p.2))
        else if e = 't' then
          (parseStringBody rest2).map (fun p => (Char.ofNat 9 :: p.1, p.2))
        else if e = 'u' then
          match rest2 with
          | h1 :: h2 :: h3 :: h4 :: rest3 =>
            match hexVal h1, hexVal h2, hexVal h3, hexVal h4 with
            | some a, some b, some c3, some d =>
              (parseStringBody rest3).map
                (fun p => (Char.ofNat (a * 4096 + b * 256 + c3 * 16 + d) :: p.1, p.2))
            | _, _, _, _ => none
          | _ => none
        else none
    else if c.toNat < 32 then none
    else (parseStringBody rest).map (fun p => (c :: p.1, p.2))

def takeDigits : List Char → (List Char × List Char)
  | [] => ([], [])
  | c :: rest =>
    if c.isDigit then
      let p := takeDigits rest
      (c :: p.1, p.2)
    else ([], c :: rest)

def parseFrac (cs : List Char) : (List Char × List Char) :=
  match cs with
  | '.' :: r =>
    match takeDigits r with
    | ([], _) => ([], cs)
    | (ds, r2) => ('.' :: ds, r2)
  | _ => ([], cs)

def parseExponent (cs : List Char) : (List Char × List Char) :=
  match cs with
  | [] => ([], cs)
  | e :: r =>
    if e = 'e' ∨ e = 'E' then
      let sp : List Char × List Char :=
        match r with
        | s :: r2 => if s = '+' ∨ s = '-' then ([s], r2) else ([], r)
        | [] => ([], r)
      match takeDigits sp.2 with
      | ([], _) => ([], cs)
      | (ds, r2) => (e :: (sp.1 ++ ds), r2)
    else ([], cs)

def parseNumber (cs : List Char) : Option (List Char × List Char) :=
  let sp : List Char × List Char :=
    match cs with
    | '-' :: r => (['-'], r)
    | _ => ([], cs)
  match sp.2 with
  | [] => none
  | c :: rest =>
    if c = '0' then
      let fr := parseFrac rest
      let ex := parseExponent fr.2
      some (sp.1 ++ ['0'] ++ fr.1 ++ ex.1, ex.2)
    else if c.isDigit then
      let ds := takeDigits rest
      let fr := parseFrac ds.2
      let ex := parseExponent fr.2
      some (sp.1 ++ (c :: ds.1) ++ fr.1 ++ ex.1, ex.2)
    else none

mutual

def parseVal : Nat → List Char → Option (JVal × List Char)
  | 0, _ => none
  | fuel + 1, cs =>
    match skipWs cs with
    | [] => none
    | c :: rest =>
      if c = Char.ofNat 123 then
        parseObjAfterBrace fuel rest
      else if c = '[' then
        parseArrAfterBracket fuel rest
      else if c = '"' then
        (parseStringBody rest).map (fun p => (jstr (String.mk p.1), p.2))
      else if c = 't' then
        match rest with
        | 'r' :: 'u' :: 'e' :: r => some (jbool true, r)
        | _ => none
      else if c = 'f' then
        match rest with
        | 'a' :: 'l' :: 's' :: 'e' :: r => some (jbool false, r)
        | _ => none
      else if c = 'n' then
        match rest with
        | 'u' :: 'l' :: 'l' :: r => some (jnull, r)
        | _ => none
      else if c = '-' ∨ c.isDigit then
        (parseNumber (c :: rest)).map (fun p => (jnum (String.mk p.1), p.2))
      else none

def parseObjAfterBrace : Nat → List Char → Option (JVal × List Char)
  | 0, _ => none
  | fuel + 1, cs =>
    match skipWs cs with
    | [] => none
    | c :: rest =>
      if c = Char.ofNat 125 then some (jobj [], rest)
      else parseObjMembers fuel [] (c :: rest)

def parseArrAfterBracket : Nat → List Char → Option (JVal × List Char)
  | 0, _ => none
  | fuel + 1, cs =>
    match skipWs cs with
    | [] => none
    | c :: rest =>
      if c = ']' then some (jarr [], rest)
      else parseArrItems fuel [] (c :: rest)

def parseObjMembers : Nat → List (String × JVal) → List Char → Option (JVal × List Char)
  | 0, _, _ => none
  | fuel + 1, acc, cs =>
    match skipWs cs with
    | [] => none
    | c :: rest =>
      if c = '"' then
        match parseStringBody rest with
        | none => none
        | some (key, r1) =>
          match skipWs r1 with
          | ':' :: r2 =>
            match parseVal fuel r2 with
            | none => none
            | some (v, r3) =>
              match skipWs r3 with
              | ',' :: r4 => parseObjMembers fuel (dset acc (String.mk key) v) r4
              | d :: r4 =>
                if d = Char.ofNat 125 then some (jobj (dset acc (String.mk key) v), r4)
                else none
              | [] => none
          | _ => none
      else none

def parseArrItems : Nat → List JVal → List Char → Option (JVal × List Char)
  | 0, _, _ => none
  | fuel + 1, acc, cs =>
    match parseVal fuel cs with
    | none => none
    | some (v, r1) =>
      match skipWs r1 with
      | ',' :: r2 => parseArrItems fuel (acc ++ [v]) r2
      | ']' :: r2 => some (jarr (acc ++ [v]), r2)
      | _ => none

end

/-- Python `json.loads`: parse a complete JSON document, allowing surrounding
whitespace; `none` models `json.JSONDecodeError`. -/
def json_loads (s : String) : Option JVal :=
  match parseVal (s.length + 2) s.toList with
  | none => none
  | some (v, rest) => if (skipWs rest).isEmpty then some v else none

def hexDigitChar (n : Nat) : Char :=
  if n < 10 then Char.ofNat (48 + n) else Char.ofNat (87 + n)

def toHex4 (n : Nat) : String :=
  String.mk [hexDigitChar (n / 4096 % 16), hexDigitChar (n / 256 % 16),
    hexDigitChar (n / 16 % 16), hexDigitChar (n % 16)]

/-- Escaping of one character as in `json.dumps` (default `ensure_ascii`). -/
def escapeJsonChar (c : Char) : String :=
  if c = '"' then "\\\""
  else if c = '\\' then "\\\\"
  else if c.toNat = 10 then "\\n"
  else if c.toNat = 13 then "\\r"
  else if c.toNat = 9 then "\\t"
  else if c.toNat = 8 then "\\b"
  else if c.toNat = 12 then "\\f"
  else if c.toNat < 32 then "\\u" ++ toHex4 c.toNat
  else if c.toNat < 127 then String.mk [c]
  else if c.toNat ≤ 65535 then "\\u" ++ toHex4 c.toNat
  else
    "\\u" ++ toHex4 (55296 + (c.toNat - 65536) / 1024)
      ++ "\\u" ++ toHex4 (56320 + (c.toNat - 65536) % 1024)

def escapeJsonString (s : String) : String :=
  "\"" ++ String.join (s.toList.map escapeJsonChar) ++ "\""

mutual

/-- Python `json.dumps` with its default separators. -/
def json_dumps : JVal → String
  | jnull => "null"
  | jbool true => "true"
  | jbool false => "false"
  | jnum lit => lit
  | jstr s => escapeJsonString s
  | jarr l => "[" ++ dumpsList l ++ "]"
  | jobj kvs => "\x7b" ++ dumpsFields kvs ++ "\x7d"

def dumpsList : List JVal → String
  | [] => ""
  | [v] => json_dumps v
  | v :: v' :: rest => json_dumps v ++ ", " ++ dumpsList (v' :: rest)

def dumpsFields : List (String × JVal) → String
  | [] => ""
  | [(k, v)] => escapeJsonString k ++ ": " ++ json_dumps v
  | (k, v) :: kv :: rest =>
    escapeJsonString k ++ ": " ++ json_dumps v ++ ", " ++ dumpsFields (kv :: rest)

end

/-- Python `s or d` for strings (used as `value.function.arguments or "{}"`). -/
def pyOrStr (s d : String) : String := if s.isEmpty then d else s

mutual

/-- Modelled from the spec: `llm.utils.remove_dict_none_values` is imported by
the source but `llm/utils.py` is not under `src/`.  The spec states that the
response payload is the "provider-shape dict with null fields stripped" and
that `response_json` never contains null-valued fields, so it is modelled as
the recursive removal of null-valued keys from every mapping, descending into
mappings and sequences. -/
def remove_dict_none_values : JVal → JVal
  | jobj kvs => jobj (removeNoneFields kvs)
  | jarr l => jarr (removeNoneList l)
  | v => v

def removeNoneFields : List (String × JVal) → List (String × JVal)
  | [] => []
  | (k, v) :: rest =>
    if v = jnull then removeNoneFields rest
    else (k, remove_dict_none_values v) :: removeNoneFields rest

def removeNoneList : List JVal → List JVal
  | [] => []
  | v :: rest => remove_dict_none_values v :: removeNoneList rest

end

mutual

/-- Helper for `simplify_usage_dict`: simplify one counter value (only
mappings are rewritten). -/
def simplifyUsageVal : JVal → JVal
  | jobj f => jobj (simplify_usage_dict f)
  | v => v

/-- Modelled from the spec: `llm.utils.simplify_usage_dict` is imported by the
source but `llm/utils.py` is not under `src/`.  Per the spec it "drops
zero/empty nested counters" from the remaining usage counters, so it is
modelled as recursively dropping entries whose value is the literal `0` or a
mapping that becomes empty.  (The spec's mention of flattening singly-nested
counter groups is ambiguous and is exercised by no claim.) -/
def simplify_usage_dict : List (String × JVal) → List (String × JVal)
  | [] => []
  | (k, v) :: rest =>
    let v' := simplifyUsageVal v
    if v' = jnum "0" ∨ v' = jobj [] then simplify_usage_dict rest
    else (k, v') :: simplify_usage_dict rest

end

mutual

/-- The redactor `redact_data` (source lines 939-962).  Recursively walks a
nested structure: an `image_url` dict value whose `url` is a `data:` URL gets
that url replaced by the placeholder `"data:..."`; an `input_audio` dict value
with a `data` key gets that data replaced by `"..."`; every other value is
recursed into.  Python mutates the structure in place and returns it; this
pure model returns the mutated value (aliasing consequences are modelled at
the call sites).  `none` models the `AttributeError` raised by
`value["url"].startswith("data:")` when the url value is not a string. -/
def redact_data : JVal → Option JVal
  | jobj kvs => (redactFields kvs).map jobj
  | jarr l => (redactList l).map jarr
  | v => some v

def redactFields : List (String × JVal) → Option (List (String × JVal))
  | [] => some []
  | (k, v) :: rest =>
    let v? : Option JVal :=
      if k = "image_url" then
        match v with
        | jobj f =>
          match dlookup f "url" with
          | some (jstr s) =>
            if pyStartsWith s "data:" then some (jobj (dset f "url" (jstr "data:...")))
            else redact_data v
          | some _ => none
          | none => redact_data v
        | _ => redact_data v
      else if k = "input_audio" then
        match v with
        | jobj f =>
          if hasKey f "data" then some (jobj (dset f "data" (jstr "...")))
          else redact_data v
        | _ => redact_data v
      else redact_data v
    match v? with
    | none => none
    | some v' =>
      match redactFields rest with
      | none => none
      | some rest' => some ((k, v') :: rest')

def redactList : List JVal → Option (List JVal)
  | [] => some []
  | v :: rest =>
    match redact_data v with
    | none => none
    | some v' =>
      match redactList rest with
      | none => none
      | some rest' => some (v' :: rest')

end

mutual

/-- Observation function for claim C5.  It nulls out the value of every
redactable position — the `url` of an `image_url` mapping when that url is a
string starting with `data:`, and the `data` of an `input_audio` mapping —
while recursing through everything else.  Two structures that agree under
`maskSensitive` differ at most at redactable positions. -/
def maskSensitive : JVal → JVal
  | jobj kvs => jobj (maskFields kvs)
  | jarr l => jarr (maskList l)
  | v => v

def maskFields : List (String × JVal) → List (String × JVal)
  | [] => []
  | (k, v) :: rest =>
    let v' : JVal :=
      if k = "image_url" then
        match v with
        | jobj f =>
          match dlookup f "url" with
          | some (jstr s) =>
            if pyStartsWith s "data:" then jobj (dset (maskFields f) "url" jnull)
            else jobj (maskFields f)
          | some _ => jobj (maskFields f)
          | none => jobj (maskFields f)
        | jarr l => jarr (maskList l)
        | jnull => jnull
        | jbool b => jbool b
        | jnum n => jnum n
        | jstr s => jstr s
      else if k = "input_audio" then
        match v with
        | jobj f =>
          if hasKey f "data" then jobj (dset (maskFields f) "data" jnull)
          else jobj (maskFields f)
        | jarr l => jarr (maskList l)
        | jnull => jnull
        | jbool b => jbool b
        | jnum n => jnum n
        | jstr s => jstr s
      else maskSensitive v
    (k, v') :: maskFields rest

def maskList : List JVal → List JVal
  | [] => []
  | v :: rest => maskSensitive v :: maskList rest

end

/-- One iteration of the `for key, value in input_dict.items()` loop body of
`redact_data`: the new value stored at `key` (`none` models the
`AttributeError`).  This restates the inlined per-field step of
`redactFields` for use in proofs. -/
def redactField (k : String) (v : JVal) : Option JVal :=
  if k = "image_url" then
    match v with
    | jobj f =>
      match dlookup f "url" with
      | some (jstr s) =>
        if pyStartsWith s "data:" then some (jobj (dset f "url" (jstr "data:...")))
        else redact_data v
      | some _ => none
      | none => redact_data v
    | _ => redact_data v
  else if k = "input_audio" then
    match v with
    | jobj f =>
      if hasKey f "data" then some (jobj (dset f "data" (jstr "...")))
      else redact_data v
    | _ => redact_data v
  else redact_data v

theorem redactFields_cons (k : String) (v : JVal) (rest : List (String × JVal)) :
    redactFields ((k, v) :: rest) =
      match redactField k v with
      | none => none
      | some v' =>
        match redactFields rest with
        | none => none
        | some rest' => some ((k, v') :: rest') := rfl

/-- The per-field step of `maskFields`, restated for use in proofs. -/
def maskField (k : String) (v : JVal) : JVal :=
  if k = "image_url" then
    match v with
    | jobj f =>
      match dlookup f "url" with
      | some (jstr s) =>
        if pyStartsWith s "data:" then jobj (dset (maskFields f) "url" jnull)
        else maskSensitive v
      | some _ => maskSensitive v
      | none => maskSensitive v
    | _ => maskSensitive v
  else if k = "input_audio" then
    match v with
    | jobj f =>
      if hasKey f "data" then jobj (dset (maskFields f) "data" jnull)
      else maskSensitive v
    | _ => maskSensitive v
  else maskSensitive v

theorem maskFields_cons (k : String) (v : JVal) (rest : List (String × JVal)) :
    maskFields ((k, v) :: rest) = (k, maskField k v) :: maskFields rest := by
  by_cases h1 : k = "image_url"
  · subst h1
    cases v with
    | jobj f =>
      cases hd : dlookup f "url" with
      | none => simp [maskFields, maskField, hd, maskSensitive]
      | some u => cases u <;> simp [maskFields, maskField, hd, maskSensitive]
    | jarr l => simp [maskFields, maskField, maskSensitive]
    | jnull => simp [maskFields, maskField, maskSensitive]
    | jbool b => simp [maskFields, maskField, maskSensitive]
    | jnum n => simp [maskFields, maskField, maskSensitive]
    | jstr s => simp [maskFields, maskField, maskSensitive]
  · by_cases h2 : k = "input_audio"
    · subst h2
      cases v <;> simp [maskFields, maskField, maskSensitive, h1]
    · cases v <;> simp [maskFields, maskField, maskSensitive, h1, h2]

/-! Lemmas about `redact_data` leading to claim C5: redaction is idempotent
and only ever rewrites redactable fields. -/

theorem dlookup_eq_none_iff (l : List (String × JVal)) (k : String) :
    dlookup l k = none ↔ hasKey l k = false := by
  induction l with
  | nil => simp [dlookup, hasKey]
  | cons hd tl ih =>
    obtain ⟨k', v'⟩ := hd
    by_cases h : k' = k <;> simp [dlookup, hasKey, h, ih]

theorem hasKey_eq_contains (l : List (String × JVal)) (k : String) :
    hasKey l k = (l.map Prod.fst).contains k := by
  induction l with
  | nil => simp [hasKey]
  | cons hd tl ih =>
    obtain ⟨k', v'⟩ := hd
    simp [hasKey, ih, List.contains_cons]
    by_cases h : k' = k <;> simp [h]
    intro hh
    exact absurd hh.symm h

theorem redactFields_keys : ∀ (l l' : List (String × JVal)),
    redactFields l = some l' → l'.map Prod.fst = l.map Prod.fst
  | [], l', h => by
    simp only [redactFields, Option.some.injEq] at h
    subst h; rfl
  | (k, v) :: rest, l', h => by
    rw [redactFields_cons] at h
    cases hf : redactField k v with
    | none => rw [hf] at h; exact absurd h (by simp)
    | some v1 =>
      rw [hf] at h
      cases hr : redactFields rest with
      | none => rw [hr] at h; exact absurd h (by simp)
      | some rest1 =>
        rw [hr] at h
        simp only [Option.some.injEq] at h
        subst h
        simp [redactFields_keys rest rest1 hr]

theorem redactFields_hasKey (l l' : List (String × JVal)) (k : String)
    (h : redactFields l = some l') : hasKey l' k = hasKey l k := by
  rw [hasKey_eq_contains, hasKey_eq_contains, redactFields_keys l l' h]

theorem redactField_jstr (k s : String) : redactField k (jstr s) = some (jstr s) := by
  by_cases h1 : k = "image_url" <;> by_cases h2 : k = "input_audio" <;>
    simp [redactField, h1, h2, redact_data]

theorem redactFields_dlookup_jstr : ∀ (l l' : List (String × JVal)) (k s : String),
    redactFields l = some l' → dlookup l k = some (jstr s) →
    dlookup l' k = some (jstr s)
  | [], l', k, s, h, hl => by simp [dlookup] at hl
  | (k₁, v) :: rest, l', k, s, h, hl => by
    rw [redactFields_cons] at h
    cases hf : redactField k₁ v with
    | none => rw [hf] at h; exact absurd h (by simp)
    | some v1 =>
      rw [hf] at h
      cases hr : redactFields rest with
      | none => rw [hr] at h; exact absurd h (by simp)
      | some rest1 =>
        rw [hr] at h
        simp only [Option.some.injEq] at h
        subst h
        by_cases hk : k₁ = k
        · subst hk
          simp only [dlookup, if_pos rfl] at hl ⊢
          obtain rfl : v = jstr s := by simpa using hl
          rw [redactField_jstr] at hf
          simpa using hf.symm
        · simp only [dlookup, if_neg hk] at hl ⊢
          exact redactFields_dlookup_jstr rest rest1 k s hr hl

theorem maskFields_dset_null (f : List (String × JVal)) (k : String) (w : JVal) :
    dset (maskFields (dset f k w)) k jnull = dset (maskFields f) k jnull := by
  induction f with
  | nil => simp [dset, maskFields, maskFields_cons]
  | cons hd tl ih =>
    obtain ⟨k₁, v₁⟩ := hd
    by_cases h : k₁ = k
    · subst h
      simp [dset, maskFields_cons]
    · simp [dset, h, maskFields_cons, ih]

/-- One-field step for the redaction idempotence/confinement argument,
parameterized by the induction hypothesis for the nested value. -/
theorem redactField_step (k : String) (v v' : JVal)
    (IH : ∀ w, redact_data v = some w →
      redact_data w = some w ∧ maskSensitive w = maskSensitive v)
    (h : redactField k v = some v') :
    redactField k v' = some v' ∧ maskField k v' = maskField k v := by
  have hps : pyStartsWith "data:..." "data:" = true := by decide
  by_cases h1 : k = "image_url"
  · subst h1
    cases v with
    | jobj f =>
      cases hd : dlookup f "url" with
      | some u =>
        cases u with
        | jstr s =>
          by_cases hs : pyStartsWith s "data:" = true
          · simp only [redactField, if_pos rfl, hd, hs, if_true, Option.some.injEq] at h
            subst h
            constructor
            · simp [redactField, dlookup_dset_self, hps, dset_dset_self]
            · simp [maskField, dlookup_dset_self, hps, hd, hs, maskFields_dset_null]
          · simp only [redactField, if_pos rfl, hd, hs] at h
            simp only [Bool.false_eq_true, if_false] at h
            have hsh : ∃ f', v' = jobj f' ∧ redactFields f = some f' := by
              simp only [redact_data] at h
              cases hf : redactFields f with
              | none => rw [hf] at h; simp at h
              | some f' => rw [hf] at h; simp at h; exact ⟨f', h.symm, rfl⟩
            obtain ⟨f', rfl, hf⟩ := hsh
            obtain ⟨hv1, hv2⟩ := IH (jobj f') h
            have hl : dlookup f' "url" = some (jstr s) :=
              redactFields_dlookup_jstr f f' "url" s hf hd
            constructor
            · simp only [redactField, if_pos rfl, hl, hs, Bool.false_eq_true, if_false]
              exact hv1
            · simp only [maskField, if_pos rfl, hd, hl, hs, Bool.false_eq_true, if_false]
              exact hv2
        | jnull => simp [redactField, hd] at h
        | jbool b => simp [redactField, hd] at h
        | jnum n => simp [redactField, hd] at h
        | jarr l2 => simp [redactField, hd] at h
        | jobj f2 => simp [redactField, hd] at h
      | none =>
        simp only [redactField, if_pos rfl, hd] at h
        have hsh : ∃ f', v' = jobj f' ∧ redactFields f = some f' := by
          simp only [redact_data] at h
          cases hf : redactFields f with
          | none => rw [hf] at h; simp at h
          | some f' => rw [hf] at h; simp at h; exact ⟨f', h.symm, rfl⟩
        obtain ⟨f', rfl, hf⟩ := hsh
        obtain ⟨hv1, hv2⟩ := IH (jobj f') h
        have hknone : dlookup f' "url" = none := by
          rw [dlookup_eq_none_iff] at hd ⊢
          rw [redactFields_hasKey f f' "url" hf]
          exact hd
        constructor
        · simp only [redactField, if_pos rfl, hknone]
          exact hv1
        · simp only [maskField, if_pos rfl, hd, hknone]
          exact hv2
    | jarr l =>
      simp only [redactField, if_pos rfl] at h
      have hsh : ∃ l', v' = jarr l' := by
        simp only [redact_data] at h
        cases hl : redactList l with
        | none => rw [hl] at h; simp at h
        | some l' => rw [hl] at h; simp at h; exact ⟨l', h.symm⟩
      obtain ⟨l', rfl⟩ := hsh
      obtain ⟨hv1, hv2⟩ := IH (jarr l') h
      constructor
      · simpa [redactField] using hv1
      · simpa [maskField] using hv2
    | jnull =>
      simp [redactField, redact_data] at h
      subst h; constructor <;> simp [redactField, maskField, redact_data]
    | jbool b =>
      simp [redactField, redact_data] at h
      subst h; constructor <;> simp [redactField, maskField, redact_data]
    | jnum n =>
      simp [redactField, redact_data] at h
      subst h; constructor <;> simp [redactField, maskField, redact_data]
    | jstr s =>
      simp [redactField, redact_data] at h
      subst h; constructor <;> simp [redactField, maskField, redact_data]
  · by_cases h2 : k = "input_audio"
    · subst h2
      cases v with
      | jobj f =>
        by_cases hk : hasKey f "data" = true
        · simp only [redactField, h1, if_false, if_pos rfl, hk, if_true,
            Option.some.injEq] at h
          subst h
          constructor
          · have : hasKey (dset f "data" (jstr "...")) "data" = true := by
              rw [hasKey_dset]; simp
            simp [redactField, h1, this, dset_dset_self]
          · simp [maskField, h1, hk, hasKey_dset, maskFields_dset_null]
        · simp only [redactField, h1, if_false, if_pos rfl, hk,
            Bool.false_eq_true, if_false] at h
          have hsh : ∃ f', v' = jobj f' ∧ redactFields f = some f' := by
            simp only [redact_data] at h
            cases hf : redactFields f with
            | none => rw [hf] at h; simp at h
            | some f' => rw [hf] at h; simp at h; exact ⟨f', h.symm, rfl⟩
          obtain ⟨f', rfl, hf⟩ := hsh
          obtain ⟨hv1, hv2⟩ := IH (jobj f') h
          have hk' : hasKey f' "data" = false := by
            rw [redactFields_hasKey f f' "data" hf]
            simpa using hk
          constructor
          · simp only [redactField, h1, if_false, if_pos rfl, hk',
              Bool.false_eq_true, if_false]
            exact hv1
          · simp only [maskField, h1, if_false, if_pos rfl, hk, hk',
              Bool.false_eq_true, if_false]
            exact hv2
      | jarr l =>
        simp only [redactField, h1, if_false, if_pos rfl] at h
        have hsh : ∃ l', v' = jarr l' := by
          simp only [redact_data] at h
          cases hl : redactList l with
          | none => rw [hl] at h; simp at h
          | some l' => rw [hl] at h; simp at h; exact ⟨l', h.symm⟩
        obtain ⟨l', rfl⟩ := hsh
        obtain ⟨hv1, hv2⟩ := IH (jarr l') h
        constructor
        · simpa [redactField, h1] using hv1
        · simpa [maskField, h1] using hv2
      | jnull =>
        simp [redactField, h1, redact_data] at h
        subst h; constructor <;> simp [redactField, maskField, h1, redact_data]
      | jbool b =>
        simp [redactField, h1, redact_data] at h
        subst h; constructor <;> simp [redactField, maskField, h1, redact_data]
      | jnum n =>
        simp [redactField, h1, redact_data] at h
        subst h; constructor <;> simp [redactField, maskField, h1, redact_data]
      | jstr s =>
        simp [redactField, h1, redact_data] at h
        subst h; constructor <;> simp [redactField, maskField, h1, redact_data]
    · simp only [redactField, h1, h2, if_false] at h
      obtain ⟨hv1, hv2⟩ := IH v' h
      constructor
      · simp only [redactField, h1, h2, if_false]
        exact hv1
      · simp only [maskField, h1, h2, if_false]
        exact hv2

mutual

theorem redact_data_good : ∀ v v', redact_data v = some v' →
    redact_data v' = some v' ∧ maskSensitive v' = maskSensitive v
  | jnull, v', h => by
    simp only [redact_data, Option.some.injEq] at h
    subst h; exact ⟨rfl, rfl⟩
  | jbool b, v', h => by
    simp only [redact_data, Option.some.injEq] at h
    subst h; exact ⟨rfl, rfl⟩
  | jnum n, v', h => by
    simp only [redact_data, Option.some.injEq] at h
    subst h; exact ⟨rfl, rfl⟩
  | jstr s, v', h => by
    simp only [redact_data, Option.some.injEq] at h
    subst h; exact ⟨rfl, rfl⟩
  | jarr l, v', h => by
    simp only [redact_data] at h
    cases hl : redactList l with
    | none => rw [hl] at h; simp at h
    | some l' =>
      rw [hl] at h
      simp only [Option.map_some', Option.some.injEq] at h
      subst h
      obtain ⟨g1, g2⟩ := redactList_good l l' hl
      exact ⟨by simp [redact_data, g1], by simp [maskSensitive, g2]⟩
  | jobj kvs, v', h => by
    simp only [redact_data] at h
    cases hl : redactFields kvs with
    | none => rw [hl] at h; simp at h
    | some kvs' =>
      rw [hl] at h
      simp only [Option.map_some', Option.some.injEq] at h
      subst h
      obtain ⟨g1, g2⟩ := redactFields_good kvs kvs' hl
      exact ⟨by simp [redact_data, g1], by simp [maskSensitive, g2]⟩

theorem redactList_good : ∀ l l', redactList l = some l' →
    redactList l' = some l' ∧ maskList l' = maskList l
  | [], l', h => by
    simp only [redactList, Option.some.injEq] at h
    subst h; exact ⟨rfl, rfl⟩
  | v :: rest, l', h => by
    simp only [redactList] at h
    cases hv : redact_data v with
    | none => rw [hv] at h; simp at h
    | some w =>
      rw [hv] at h
      cases hr : redactList rest with
      | none => rw [hr] at h; simp at h
      | some rest' =>
        rw [hr] at h
        simp only [Option.some.injEq] at h
        subst h
        obtain ⟨a1, a2⟩ := redact_data_good v w hv
        obtain ⟨b1, b2⟩ := redactList_good rest rest' hr
        exact ⟨by simp [redactList, a1, b1], by simp [maskList, a2, b2]⟩

theorem redactFields_good : ∀ l l', redactFields l = some l' →
    redactFields l' = some l' ∧ maskFields l' = maskFields l
  | [], l', h => by
    simp only [redactFields, Option.some.injEq] at h
    subst h; exact ⟨rfl, rfl⟩
  | (k, v) :: rest, l', h => by
    rw [redactFields_cons] at h
    cases hf : redactField k v with
    | none => rw [hf] at h; simp at h
    | some v1 =>
      rw [hf] at h
      cases hr : redactFields rest with
      | none => rw [hr] at h; simp at h
      | some rest1 =>
        rw [hr] at h
        simp only [Option.some.injEq] at h
        subst h
        obtain ⟨a1, a2⟩ := redactField_step k v v1 (redact_data_good v) hf
        obtain ⟨b1, b2⟩ := redactFields_good rest rest1 hr
        refine ⟨?_, ?_⟩
        · rw [redactFields_cons, a1, b1]
        · rw [maskFields_cons, maskFields_cons, a2, b2]

end

/-! Data model for prompts, attachments, conversations (the shapes consumed
by `_Shared.build_messages`, source lines 430-456 and 519-594). -/

structure Attachment where
  url : Option String
  resolve_type : String
  base64_content : String
  aid : String
  deriving DecidableEq, Repr

structure ToolResultRec where
  tool_call_id : Option String
  output : String
  deriving DecidableEq, Repr

structure ToolCallRec where
  tool_call_id : Option String
  name : Option String
  arguments : JVal
  deriving DecidableEq, Repr

structure ToolDecl where
  name : String
  description : Option String
  input_schema : JVal
  deriving DecidableEq, Repr

/-- The option bag of `Chat.Options` (`SharedOptions` plus `json_object`),
in pydantic field-declaration order.  Values other than `max_tokens`,
`seed` and `json_object` are carried as JSON-like values; no claim depends
on their numeric interpretation. -/
structure ChatOptionsRec where
  temperature : Option JVal := none
  max_tokens : Option JVal := none
  top_p : Option JVal := none
  frequency_penalty : Option JVal := none
  presence_penalty : Option JVal := none
  stop : Option JVal := none
  logit_bias : Option JVal := none
  seed : Option JVal := none
  json_object : Option Bool := none
  deriving DecidableEq, Repr

structure Prompt where
  system : Option String := none
  prompt : Option String := none
  attachments : List Attachment := []
  tool_results : List ToolResultRec := []
  schema : Option JVal := none
  tools : List ToolDecl := []
  options : ChatOptionsRec := {}
  deriving DecidableEq, Repr

/-- One prior turn of a conversation: `prev_response.prompt`,
`.attachments`, `.text_or_raise()` and `.tool_calls_or_raise()`. -/
structure PrevResponse where
  prompt : Prompt
  attachments : List Attachment := []
  text : String := ""
  tool_calls : List ToolCallRec := []
  deriving DecidableEq, Repr

structure Conversation where
  responses : List PrevResponse
  deriving DecidableEq, Repr

def jstrOpt : Option String → JVal
  | none => jnull
  | some s => jstr s

/-- The attachment encoder `_attachment` (source lines 430-456). -/
def _attachment (attachment : Attachment) : JVal :=
  let fetch := !pyTruthyOptStr attachment.url
    || pyStartsWith attachment.resolve_type "audio/"
  let base64_content := if fetch then attachment.base64_content else ""
  let url :=
    if fetch then "data:" ++ attachment.resolve_type ++ ";base64," ++ attachment.base64_content
    else attachment.url.getD ""
  if attachment.resolve_type = "application/pdf" then
    let b64 := if base64_content.isEmpty then attachment.base64_content else base64_content
    jobj [("type", jstr "file"),
      ("file", jobj [("filename", jstr (attachment.aid ++ ".pdf")),
        ("file_data", jstr ("data:application/pdf;base64," ++ b64))])]
  else if pyStartsWith attachment.resolve_type "image/" then
    jobj [("type", jstr "image_url"), ("image_url", jobj [("url", jstr url)])]
  else
    let format := if attachment.resolve_type = "audio/wav" then "wav" else "mp3"
    jobj [("type", jstr "input_audio"),
      ("input_audio", jobj [("data", jstr base64_content), ("format", jstr format)])]

/-- The `attachment_message` list built for a user turn with attachments:
an optional text part followed by the encoded attachments. -/
def attachmentContent (text : Option String) (attachments : List Attachment) : List JVal :=
  (if pyTruthyOptStr text then [jobj [("type", jstr "text"), ("text", jstr (text.getD ""))]]
   else [])
    ++ attachments.map _attachment

/-! `build_messages` (source lines 519-594), decomposed by the appends the
loop body performs for one prior response, in source order: system
(deduplicated against `current_system`), user content, tool results,
assistant text, assistant tool calls. -/

def historyUserMsgs (r : PrevResponse) : List JVal :=
  if r.attachments ≠ [] then
    [jobj [("role", jstr "user"),
      ("content", jarr (attachmentContent r.prompt.prompt r.attachments))]]
  else if pyTruthyOptStr r.prompt.prompt then
    [jobj [("role", jstr "user"), ("content", jstr (r.prompt.prompt.getD ""))]]
  else []

def toolResultMsgs (tool_results : List ToolResultRec) : List JVal :=
  tool_results.map (fun tool_result =>
    jobj [("role", jstr "tool"),
      ("tool_call_id", jstrOpt tool_result.tool_call_id),
      ("content", jstr tool_result.output)])

def historyAssistantMsgs (r : PrevResponse) : List JVal :=
  if !r.text.isEmpty then
    [jobj [("role", jstr "assistant"), ("content", jstr r.text)]]
  else []

def historyToolCallMsgs (r : PrevResponse) : List JVal :=
  if r.tool_calls ≠ [] then
    [jobj [("role", jstr "assistant"),
      ("tool_calls", jarr (r.tool_calls.map (fun tool_call =>
        jobj [("type", jstr "function"),
          ("id", jstrOpt tool_call.tool_call_id),
          ("function", jobj [("name", jstrOpt tool_call.name),
            ("arguments", jstr (json_dumps tool_call.arguments))])])))]]
  else []

def historyRest (r : PrevResponse) : List JVal :=
  historyUserMsgs r ++ toolResultMsgs r.prompt.tool_results
    ++ historyAssistantMsgs r ++ historyToolCallMsgs r

/-- The conditional system-message emission shared by the history loop and
the current prompt: emit only when the system text is truthy and differs
from `current_system`, updating `current_system`. -/
def sysStep (system : Option String) (current_system : Option String) :
    List JVal × Option String :=
  match system with
  | some s =>
    if !s.isEmpty ∧ some s ≠ current_system then
      ([jobj [("role", jstr "system"), ("content", jstr s)]], some s)
    else ([], current_system)
  | none => ([], current_system)

def buildHistoryStep (acc : List JVal × Option String) (r : PrevResponse) :
    List JVal × Option String :=
  let st := sysStep r.prompt.system acc.2
  (acc.1 ++ st.1 ++ historyRest r, st.2)

def promptUserMsgs (prompt : Prompt) : List JVal :=
  if prompt.attachments = [] then
    if pyTruthyOptStr prompt.prompt then
      [jobj [("role", jstr "user"), ("content", jstr (prompt.prompt.getD ""))]]
    else []
  else
    [jobj [("role", jstr "user"),
      ("content", jarr (attachmentContent prompt.prompt prompt.attachments))]]

/-- The `(messages, current_system)` state after replaying the conversation
history (the loop over `conversation.responses`). -/
def historyAcc (conversation : Option Conversation) : List JVal × Option String :=
  match conversation with
  | some conv => conv.responses.foldl buildHistoryStep ([], none)
  | none => ([], none)

def build_messages (prompt : Prompt) (conversation : Option Conversation) : List JVal :=
  let acc := historyAcc conversation
  let st := sysStep prompt.system acc.2
  acc.1 ++ st.1 ++ toolResultMsgs prompt.tool_results ++ promptUserMsgs prompt

/-! Claim C6 machinery: the system texts appearing in a message list, and the
invariant that they never repeat consecutively, with `current_system` always
holding the most recently emitted one. -/

/-- The contents of the system messages of a message list, in order. -/
def systemTextsOf (msgs : List JVal) : List JVal :=
  msgs.filterMap (fun m =>
    match m with
    | jobj kvs => if dlookup kvs "role" = some (jstr "system") then dlookup kvs "content" else none
    | _ => none)

def sysInv (messages : List JVal) (current_system : Option String) : Prop :=
  List.Chain' (fun a b => a ≠ b) (systemTextsOf messages) ∧
    (systemTextsOf messages).getLast? = current_system.map jstr

theorem systemTextsOf_append (a b : List JVal) :
    systemTextsOf (a ++ b) = systemTextsOf a ++ systemTextsOf b :=
  List.filterMap_append a b _

theorem systemTextsOf_nil : systemTextsOf [] = [] := rfl

theorem systemTextsOf_user (c : JVal) :
    systemTextsOf [jobj [("role", jstr "user"), ("content", c)]] = [] := by
  simp [systemTextsOf, dlookup]

theorem systemTextsOf_assistant_content (c : JVal) :
    systemTextsOf [jobj [("role", jstr "assistant"), ("content", c)]] = [] := by
  simp [systemTextsOf, dlookup]

theorem systemTextsOf_assistant_tools (c : JVal) :
    systemTextsOf [jobj [("role", jstr "assistant"), ("tool_calls", c)]] = [] := by
  simp [systemTextsOf, dlookup]

theorem systemTextsOf_toolResultMsgs (trs : List ToolResultRec) :
    systemTextsOf (toolResultMsgs trs) = [] := by
  rw [systemTextsOf, List.filterMap_eq_nil_iff]
  intro m hm
  rw [toolResultMsgs, List.mem_map] at hm
  obtain ⟨tr, _, rfl⟩ := hm
  simp [dlookup]

theorem systemTextsOf_historyUserMsgs (r : PrevResponse) :
    systemTextsOf (historyUserMsgs r) = [] := by
  rw [historyUserMsgs]
  split
  · exact systemTextsOf_user _
  · split
    · exact systemTextsOf_user _
    · rfl

theorem systemTextsOf_historyAssistantMsgs (r : PrevResponse) :
    systemTextsOf (historyAssistantMsgs r) = [] := by
  rw [historyAssistantMsgs]
  split
  · exact systemTextsOf_assistant_content _
  · rfl

theorem systemTextsOf_historyToolCallMsgs (r : PrevResponse) :
    systemTextsOf (historyToolCallMsgs r) = [] := by
  rw [historyToolCallMsgs]
  split
  · exact systemTextsOf_assistant_tools _
  · rfl

theorem systemTextsOf_historyRest (r : PrevResponse) :
    systemTextsOf (historyRest r) = [] := by
  rw [historyRest]
  rw [systemTextsOf_append, systemTextsOf_append, systemTextsOf_append]
  rw [systemTextsOf_historyUserMsgs, systemTextsOf_toolResultMsgs,
    systemTextsOf_historyAssistantMsgs, systemTextsOf_historyToolCallMsgs]
  rfl

theorem systemTextsOf_promptUserMsgs (p : Prompt) :
    systemTextsOf (promptUserMsgs p) = [] := by
  rw [promptUserMsgs]
  split
  · split
    · exact systemTextsOf_user _
    · rfl
  · exact systemTextsOf_user _

theorem sysInv_append_nonsys (m : List JVal) (c : Option String) (rest : List JVal)
    (hrest : systemTextsOf rest = []) (h : sysInv m c) : sysInv (m ++ rest) c := by
  obtain ⟨h1, h2⟩ := h
  constructor
  · rw [systemTextsOf_append, hrest, List.append_nil]; exact h1
  · rw [systemTextsOf_append, hrest, List.append_nil]; exact h2

theorem sysInv_sysStep (m : List JVal) (c : Option String) (sys : Option String)
    (h : sysInv m c) :
    sysInv (m ++ (sysStep sys c).1) (sysStep sys c).2 := by
  obtain ⟨h1, h2⟩ := h
  cases sys with
  | none => simpa [sysStep] using ⟨h1, h2⟩
  | some s =>
    by_cases hc : (!s.isEmpty) = true ∧ some s ≠ c
    · have hstep : sysStep (some s) c
          = ([jobj [("role", jstr "system"), ("content", jstr s)]], some s) := by
        simp [sysStep, hc]
      rw [hstep]
      constructor
      · rw [systemTextsOf_append]
        rw [List.chain'_append]
        refine ⟨h1, ?_, ?_⟩
        · simp [systemTextsOf, dlookup]
        · intro x hx y hy
          rw [h2] at hx
          have hxy : ∃ cv, c = some cv ∧ x = jstr cv := by
            cases c with
            | none => simp at hx
            | some cv => exact ⟨cv, rfl, by simpa using hx.symm⟩
          obtain ⟨cv, hcv, rfl⟩ := hxy
          have hy' : y = jstr s := by
            simpa [systemTextsOf, dlookup] using hy.symm
          subst hy'
          intro heq
          simp only [JVal.jstr.injEq] at heq
          exact hc.2 (by rw [hcv, heq])
      · rw [systemTextsOf_append]
        have hsm : systemTextsOf [jobj [("role", jstr "system"), ("content", jstr s)]]
            = [jstr s] := by simp [systemTextsOf, dlookup]
        rw [hsm, List.getLast?_concat]
        rfl
    · have hstep : sysStep (some s) c = ([], c) := by
        simp only [sysStep, if_neg hc]
      rw [hstep]
      simpa using ⟨h1, h2⟩

theorem buildHistoryStep_inv (acc : List JVal × Option String) (r : PrevResponse)
    (h : sysInv acc.1 acc.2) :
    sysInv (buildHistoryStep acc r).1 (buildHistoryStep acc r).2 := by
  have h1 := sysInv_sysStep acc.1 acc.2 r.prompt.system h
  have h2 := sysInv_append_nonsys _ _ _ (systemTextsOf_historyRest r) h1
  exact h2

theorem foldl_buildHistoryStep_inv (rs : List PrevResponse)
    (acc : List JVal × Option String) (h : sysInv acc.1 acc.2) :
    sysInv (rs.foldl buildHistoryStep acc).1 (rs.foldl buildHistoryStep acc).2 := by
  induction rs generalizing acc with
  | nil => simpa using h
  | cons r rest ih =>
    rw [List.foldl_cons]
    exact ih _ (buildHistoryStep_inv acc r h)

theorem build_messages_sysInv (prompt : Prompt) (conversation : Option Conversation) :
    ∃ c, sysInv (build_messages prompt conversation) c := by
  have hacc : sysInv (historyAcc conversation).1 (historyAcc conversation).2 := by
    cases conversation with
    | none => exact ⟨by simp [historyAcc, systemTextsOf], by simp [historyAcc, systemTextsOf]⟩
    | some conv =>
      have h0 : sysInv ([] : List JVal) (none : Option String) :=
        ⟨by simp [systemTextsOf], by simp [systemTextsOf]⟩
      have := foldl_buildHistoryStep_inv conv.responses ([], none) h0
      simpa [historyAcc] using this
  refine ⟨(sysStep prompt.system (historyAcc conversation).2).2, ?_⟩
  have h1 := sysInv_sysStep (historyAcc conversation).1 (historyAcc conversation).2
    prompt.system hacc
  have h2 := sysInv_append_nonsys _ _ (toolResultMsgs prompt.tool_results)
    (systemTextsOf_toolResultMsgs prompt.tool_results) h1
  have h3 := sysInv_append_nonsys _ _ (promptUserMsgs prompt)
    (systemTextsOf_promptUserMsgs prompt) h2
  exact h3

/-! The request-parameter builder `_Shared.build_kwargs` (source lines
631-657), over the option bag in pydantic field order. -/

def optEntry (k : String) (v : Option JVal) : List (String × JVal) :=
  match v with
  | some x => [(k, x)]
  | none => []

/-- `not_nulls(prompt.options)` (source lines 887-888): the non-null option
fields in field-declaration order. -/
def not_nulls (options : ChatOptionsRec) : List (String × JVal) :=
  optEntry "temperature" options.temperature
    ++ optEntry "max_tokens" options.max_tokens
    ++ optEntry "top_p" options.top_p
    ++ optEntry "frequency_penalty" options.frequency_penalty
    ++ optEntry "presence_penalty" options.presence_penalty
    ++ optEntry "stop" options.stop
    ++ optEntry "logit_bias" options.logit_bias
    ++ optEntry "seed" options.seed
    ++ optEntry "json_object" (options.json_object.map jbool)

/-- One function-tool descriptor (`tool.description or None` maps a falsy
description to null). -/
def toolDescriptor (tool : ToolDecl) : JVal :=
  jobj [("type", jstr "function"),
    ("function", jobj [("name", jstr tool.name),
      ("description",
        if pyTruthyOptStr tool.description then jstr (tool.description.getD "") else jnull),
      ("parameters", tool.input_schema)])]

def build_kwargs (options : ChatOptionsRec) (schema : Option JVal)
    (tools : List ToolDecl) (default_max_tokens : Option JVal) (stream : Bool) :
    List (String × JVal) :=
  let kwargs := not_nulls options
  let json_object := dlookup kwargs "json_object"
  let kwargs := dremove kwargs "json_object"
  let kwargs :=
    match default_max_tokens with
    | some d => if hasKey kwargs "max_tokens" then kwargs else dset kwargs "max_tokens" d
    | none => kwargs
  let kwargs :=
    match json_object with
    | some jo =>
      if pyTruthy jo then dset kwargs "response_format" (jobj [("type", jstr "json_object")])
      else kwargs
    | none => kwargs
  let kwargs :=
    match schema with
    | some sc =>
      if pyTruthy sc then
        dset kwargs "response_format" (jobj [("type", jstr "json_schema"),
          ("json_schema", jobj [("name", jstr "output"), ("schema", sc)])])
      else kwargs
    | none => kwargs
  let kwargs :=
    if tools ≠ [] then dset kwargs "tools" (jarr (tools.map toolDescriptor)) else kwargs
  let kwargs :=
    if stream then dset kwargs "stream_options" (jobj [("include_usage", jbool true)])
    else kwargs
  kwargs

/-! Streamed chunk shapes of the chat and legacy-completion APIs, and the
shared response combiner `combine_chunks` (source lines 891-936). -/

structure DeltaToolCallFunction where
  name : Option String
  arguments : Option String
  deriving DecidableEq, Repr

structure DeltaToolCall where
  index : Nat
  id : Option String
  function : DeltaToolCallFunction
  deriving DecidableEq, Repr

structure Delta where
  role : Option String := none
  content : Option String := none
  tool_calls : Option (List DeltaToolCall) := none
  deriving DecidableEq, Repr

/-- Streaming logprobs object; `top_logprobs = none` models the attribute
being absent (`hasattr(choice.logprobs, "top_logprobs")` false). -/
structure LogprobsObj where
  top_logprobs : Option JVal
  deriving DecidableEq, Repr

structure ChatChoice where
  delta : Delta
  finish_reason : Option String := none
  logprobs : Option LogprobsObj := none
  deriving DecidableEq, Repr

structure ChatChunk where
  choices : List ChatChoice
  usage : Option (List (String × JVal)) := none
  id : Option JVal := none
  object : Option JVal := none
  model : Option JVal := none
  created : Option JVal := none
  index : Option JVal := none
  deriving DecidableEq, Repr

structure TextChoice where
  text : String
  finish_reason : Option String := none
  logprobs : Option LogprobsObj := none
  deriving DecidableEq, Repr

structure CompletionChunk where
  choices : List TextChoice
  usage : Option (List (String × JVal)) := none
  id : Option JVal := none
  object : Option JVal := none
  model : Option JVal := none
  created : Option JVal := none
  index : Option JVal := none
  deriving DecidableEq, Repr

/-- `combine_chunks` duck-types its choices: chat choices have a `delta`
attribute, completion choices have `text` instead. -/
inductive CombChoice where
  | fromDelta (c : ChatChoice)
  | fromText (c : TextChoice)
  deriving DecidableEq, Repr

structure CombChunk where
  choices : List CombChoice
  usage : Option (List (String × JVal))
  id : Option JVal
  object : Option JVal
  model : Option JVal
  created : Option JVal
  index : Option JVal
  deriving DecidableEq, Repr

def chatChunkToComb (c : ChatChunk) : CombChunk :=
  { choices := c.choices.map CombChoice.fromDelta, usage := c.usage, id := c.id,
    object := c.object, model := c.model, created := c.created, index := c.index }

def completionChunkToComb (c : CompletionChunk) : CombChunk :=
  { choices := c.choices.map CombChoice.fromText, usage := c.usage, id := c.id,
    object := c.object, model := c.model, created := c.created, index := c.index }

structure CombineState where
  content : String
  role : Option String
  finish_reason : Option String
  logprobs : List JVal
  usage : List (String × JVal)
  deriving DecidableEq, Repr

def combineChoiceStep (st : CombineState) (choice : CombChoice) : CombineState :=
  let lp : Option LogprobsObj :=
    match choice with
    | .fromDelta c => c.logprobs
    | .fromText c => c.logprobs
  let textAttr : JVal :=
    match choice with
    | .fromDelta _ => jnull
    | .fromText c => jstr c.text
  let st :=
    match lp with
    | some lpo =>
      match lpo.top_logprobs with
      | some tl =>
        { st with logprobs := st.logprobs
            ++ [jobj [("text", textAttr), ("top_logprobs", tl)]] }
      | none => st
    | none => st
  match choice with
  | .fromText c => { st with content := st.content ++ c.text }
  | .fromDelta c =>
    let st := { st with role := c.delta.role }
    let st :=
      match c.delta.content with
      | some s => { st with content := st.content ++ s }
      | none => st
    match c.finish_reason with
    | some fr => { st with finish_reason := some fr }
    | none => st

def combineChunkStep (st : CombineState) (item : CombChunk) : CombineState :=
  let st := if item.usage.isSome then { st with usage := item.usage.getD [] } else st
  item.choices.foldl combineChoiceStep st

def combine_chunks (chunks : List CombChunk) : JVal :=
  let st := chunks.foldl combineChunkStep
    { content := "", role := none, finish_reason := none, logprobs := [], usage := [] }
  let combined : List (String × JVal) :=
    [("content", jstr st.content), ("role", jstrOpt st.role),
     ("finish_reason", jstrOpt st.finish_reason), ("usage", jobj st.usage)]
  let combined := if st.logprobs ≠ [] then combined ++ [("logprobs", jarr st.logprobs)] else combined
  let combined :=
    match chunks with
    | [] => combined
    | c0 :: _ =>
      combined
        ++ (match c0.id with | some v => [("id", v)] | none => [])
        ++ (match c0.object with | some v => [("object", v)] | none => [])
        ++ (match c0.model with | some v => [("model", v)] | none => [])
        ++ (match c0.created with | some v => [("created", v)] | none => [])
        ++ (match c0.index with | some v => [("index", v)] | none => [])
  jobj combined

/-! The streaming Chunk Aggregator state and the executors.  `Chat.execute`
(source lines 671-739) and `AsyncChat.execute` (753-825) are modelled over
the list of chunks the transport delivers; `Completion.execute` (843-884)
over legacy text chunks.  Mutations of the `response` object are collected in
an `ExecOutcome`; when the Python code raises, the outcome holds exactly the
fields assigned before the raise and `error` names the exception class. -/

structure StoredToolCall where
  id : Option String
  name : Option String
  arguments : String
  deriving DecidableEq, Repr

def nlookup (m : List (Nat × StoredToolCall)) (i : Nat) : Option StoredToolCall :=
  match m with
  | [] => none
  | (j, v) :: rest => if j = i then some v else nlookup rest i

def nset (m : List (Nat × StoredToolCall)) (i : Nat) (v : StoredToolCall) :
    List (Nat × StoredToolCall) :=
  match m with
  | [] => [(i, v)]
  | (j, w) :: rest => if j = i then (j, v) :: rest else (j, w) :: nset rest i v

/-- One tool-call delta folded into the index-keyed accumulator (source lines
692-700).  `if tool_call.function.arguments is None:` defaults the delta to
`""`.  When the index is new, `tool_calls[index] = tool_call` stores a
reference to the mutable delta object itself, and the unconditional
`tool_calls[index].function.arguments += tool_call.function.arguments` then
reads and writes that same object — so the first fragment's arguments are
appended to themselves. -/
def toolDeltaStep (tool_calls : List (Nat × StoredToolCall)) (tool_call : DeltaToolCall) :
    List (Nat × StoredToolCall) :=
  let args := tool_call.function.arguments.getD ""
  match nlookup tool_calls tool_call.index with
  | none =>
    nset tool_calls tool_call.index
      { id := tool_call.id, name := tool_call.function.name, arguments := args ++ args }
  | some stored =>
    nset tool_calls tool_call.index { stored with arguments := stored.arguments ++ args }

structure StreamState where
  chunks : List ChatChunk
  usage : Option (List (String × JVal))
  tool_calls : List (Nat × StoredToolCall)
  emitted : List String
  deriving DecidableEq, Repr

def initialStreamState : StreamState :=
  { chunks := [], usage := none, tool_calls := [], emitted := [] }

/-- The tool-call and content part of the per-chunk loop body, textually
identical in the sync (691-706) and async (777-792) sources.
`if chunk.choices and chunk.choices[0].delta:` reduces to a check on
`chunk.choices` since a pydantic delta object is always truthy, and the
`try`/`except IndexError` around `chunk.choices[0].delta.content` yields no
content for a chunk with an empty choices list. -/
def chunkToolAndContentStep (st : StreamState) (chunk : ChatChunk) : StreamState :=
  let st :=
    match chunk.choices with
    | [] => st
    | choice :: _ =>
      { st with tool_calls :=
          (choice.delta.tool_calls.getD []).foldl toolDeltaStep st.tool_calls }
  let content : Option String :=
    match chunk.choices with
    | [] => none
    | choice :: _ => choice.delta.content
  match content with
  | some s => { st with emitted := st.emitted ++ [s] }
  | none => st

def syncChunkStep (st : StreamState) (chunk : ChatChunk) : StreamState :=
  let st := { st with chunks := st.chunks ++ [chunk] }
  let st := if chunk.usage.isSome then { st with usage := chunk.usage } else st
  chunkToolAndContentStep st chunk

/-- The async loop checks and stores usage both before and after appending
the chunk (duplicated lines 771-776 of the source). -/
def asyncChunkStep (st : StreamState) (chunk : ChatChunk) : StreamState :=
  let st := if chunk.usage.isSome then { st with usage := chunk.usage } else st
  let st := { st with chunks := st.chunks ++ [chunk] }
  let st := if chunk.usage.isSome then { st with usage := chunk.usage } else st
  chunkToolAndContentStep st chunk

inductive ExecError where
  | notImplementedError
  | jsonDecodeError
  | keyError
  | attributeError
  | typeError
  deriving DecidableEq, Repr

/-- `llm.ToolCall` as exposed through `response.add_tool_call`. -/
structure LToolCall where
  tool_call_id : Option String
  name : Option String
  arguments : JVal
  deriving DecidableEq, Repr

/-- The finalization of one accumulated arguments buffer:
`json.loads(value.function.arguments or "...")` with the empty-object
literal as the fallback for an empty buffer (source line 716). -/
def finalize_arguments (arguments : String) : Option JVal :=
  json_loads (pyOrStr arguments "\x7b\x7d")

/-- The `for value in tool_calls.values()` finalization loop.  On a JSON
decode failure the error carries the tool calls added before the raise. -/
def addToolCalls : List LToolCall → List (Nat × StoredToolCall) →
    Except (List LToolCall) (List LToolCall)
  | acc, [] => .ok acc
  | acc, (_, value) :: rest =>
    match finalize_arguments value.arguments with
    | none => .error acc
    | some args =>
      addToolCalls
        (acc ++ [{ tool_call_id := value.id, name := value.name, arguments := args }]) rest

structure UsageSet where
  input : JVal
  output : JVal
  details : List (String × JVal)
  deriving DecidableEq, Repr

/-- `_Shared.set_usage` (source lines 596-604): a falsy usage snapshot (absent
or empty) is ignored; otherwise the three well-known counters are popped
(`KeyError` when missing) and the remainder is simplified into `details`. -/
def set_usage (usage : Option (List (String × JVal))) : Except ExecError (Option UsageSet) :=
  match usage with
  | none => .ok none
  | some u =>
    if u.isEmpty then .ok none
    else
      match dpop u "prompt_tokens" with
      | none => .error .keyError
      | some (input_tokens, u1) =>
        match dpop u1 "completion_tokens" with
        | none => .error .keyError
        | some (output_tokens, u2) =>
          match dpop u2 "total_tokens" with
          | none => .error .keyError
          | some (_, u3) =>
            .ok (some {
              input := input_tokens
              output := output_tokens
              details := simplify_usage_dict u3 })

structure ExecOutcome where
  emitted : List String
  response_json : Option JVal
  tool_calls : List LToolCall
  usage : Option UsageSet
  prompt_json : Option JVal
  messagesAfter : Option (List JVal)
  error : Option ExecError
  deriving DecidableEq, Repr

def emptyOutcome : ExecOutcome :=
  { emitted := [], response_json := none, tool_calls := [], usage := none,
    prompt_json := none, messagesAfter := none, error := none }

/-- The live `messages` list after `redact_data({"messages": messages})`:
Python's redaction mutates the nested structures in place and the list passed
to the transport aliases the `messages` entry of the redacted payload, so
after the call the live list holds the redacted messages. -/
def messagesOfRedacted (rd : JVal) : Option (List JVal) :=
  match rd with
  | jobj kvs =>
    match dlookup kvs "messages" with
    | some (jarr l) => some l
    | _ => none
  | _ => none

/-- The streaming branch of `Chat.execute` (source lines 671-739). -/
def chatExecute (allows_system_prompt : Bool) (prompt : Prompt)
    (conversation : Option Conversation) (streamChunks : List ChatChunk) : ExecOutcome :=
  if pyTruthyOptStr prompt.system ∧ ¬allows_system_prompt then
    { emptyOutcome with error := some .notImplementedError }
  else
    let messages := build_messages prompt conversation
    let _kwargs := build_kwargs prompt.options prompt.schema prompt.tools none true
    let st := streamChunks.foldl syncChunkStep initialStreamState
    let response_json :=
      remove_dict_none_values (combine_chunks (st.chunks.map chatChunkToComb))
    match addToolCalls [] st.tool_calls with
    | .error added =>
      { emptyOutcome with
        emitted := st.emitted, response_json := some response_json,
        tool_calls := added, error := some .jsonDecodeError }
    | .ok calls =>
      match set_usage st.usage with
      | .error e =>
        { emptyOutcome with
          emitted := st.emitted, response_json := some response_json,
          tool_calls := calls, error := some e }
      | .ok u =>
        match redact_data (jobj [("messages", jarr messages)]) with
        | none =>
          { emptyOutcome with
            emitted := st.emitted, response_json := some response_json,
            tool_calls := calls, usage := u, error := some .attributeError }
        | some rd =>
          {
            emitted := st.emitted, response_json := some response_json,
            tool_calls := calls, usage := u, prompt_json := some rd,
            messagesAfter := messagesOfRedacted rd, error := none }

/-- The streaming branch of `AsyncChat.execute` (source lines 753-825); the
tool-call finalization runs before `response_json` is assigned. -/
def asyncChatExecute (allows_system_prompt : Bool) (prompt : Prompt)
    (conversation : Option Conversation) (streamChunks : List ChatChunk) : ExecOutcome :=
  if pyTruthyOptStr prompt.system ∧ ¬allows_system_prompt then
    { emptyOutcome with error := some .notImplementedError }
  else
    let messages := build_messages prompt conversation
    let _kwargs := build_kwargs prompt.options prompt.schema prompt.tools none true
    let st := streamChunks.foldl asyncChunkStep initialStreamState
    match addToolCalls [] st.tool_calls with
    | .error added =>
      { emptyOutcome with
        emitted := st.emitted, tool_calls := added,
        error := some .jsonDecodeError }
    | .ok calls =>
      let response_json :=
        remove_dict_none_values (combine_chunks (st.chunks.map chatChunkToComb))
      match set_usage st.usage with
      | .error e =>
        { emptyOutcome with
          emitted := st.emitted, response_json := some response_json,
          tool_calls := calls, error := some e }
      | .ok u =>
        match redact_data (jobj [("messages", jarr messages)]) with
        | none =>
          { emptyOutcome with
            emitted := st.emitted, response_json := some response_json,
            tool_calls := calls, usage := u, error := some .attributeError }
        | some rd =>
          {
            emitted := st.emitted, response_json := some response_json,
            tool_calls := calls, usage := u, prompt_json := some rd,
            messagesAfter := messagesOfRedacted rd, error := none }

structure CompletionStreamState where
  chunks : List CompletionChunk
  emitted : List String
  deriving DecidableEq, Repr

def completionChunkStep (st : CompletionStreamState) (chunk : CompletionChunk) :
    CompletionStreamState :=
  let st := { st with chunks := st.chunks ++ [chunk] }
  match chunk.choices with
  | [] => st
  | choice :: _ => { st with emitted := st.emitted ++ [choice.text] }

/-- Python `"\n".join(entries)`: `none` models the `TypeError` raised when an
entry is `None`. -/
def optJoin : List (Option String) → Option String
  | [] => some ""
  | [x] => x
  | x :: rest =>
    match x, optJoin rest with
    | some s, some r => some (s ++ "\n" ++ r)
    | _, _ => none

/-- The streaming branch of `Completion.execute` (source lines 843-884).  It
raises for any truthy system prompt, never consulting `allows_system_prompt`
(the parameter is carried only to state that the flag is ignored).  Its flat
history is `[prev.prompt, prev.text, ...]` joined by newlines; the prompt
entries may be `None`.  (`Completion.Options` replaces `json_object` with
`logprobs`; the option bag is irrelevant to every claim about this variant
and is carried through `build_kwargs` unchanged.) -/
def completionExecute (allows_system_prompt : Bool) (prompt : Prompt)
    (conversation : Option Conversation) (default_max_tokens : Option JVal)
    (streamChunks : List CompletionChunk) : ExecOutcome :=
  if pyTruthyOptStr prompt.system then
    { emptyOutcome with error := some .notImplementedError }
  else
    let messages : List (Option String) :=
      (match conversation with
       | some conv =>
         conv.responses.foldl (fun acc r => acc ++ [r.prompt.prompt, some r.text]) []
       | none => []) ++ [prompt.prompt]
    let _kwargs := build_kwargs prompt.options prompt.schema prompt.tools
      default_max_tokens true
    match optJoin messages with
    | none => { emptyOutcome with error := some .typeError }
    | some _joined =>
      let st := streamChunks.foldl completionChunkStep { chunks := [], emitted := [] }
      let response_json :=
        remove_dict_none_values (combine_chunks (st.chunks.map completionChunkToComb))
      match redact_data (jobj [("messages", jarr (messages.map jstrOpt))]) with
      | none =>
        { emptyOutcome with
          emitted := st.emitted, response_json := some response_json,
          error := some .attributeError }
      | some rd =>
        { emptyOutcome with
          emitted := st.emitted, response_json := some response_json,
          prompt_json := some rd, messagesAfter := messagesOfRedacted rd }

/-! Support lemmas for the claims about the executors. -/

theorem set_usage_error_eq (u : Option (List (String × JVal))) (e : ExecError)
    (h : set_usage u = .error e) : e = ExecError.keyError := by
  unfold set_usage at h
  repeat' split at h
  all_goals simp_all

theorem chatExecute_else_error (allows_system_prompt : Bool) (prompt : Prompt)
    (conversation : Option Conversation) (streamChunks : List ChatChunk)
    (hg : ¬(pyTruthyOptStr prompt.system = true ∧ ¬allows_system_prompt = true)) :
    (chatExecute allows_system_prompt prompt conversation streamChunks).error
      ≠ some ExecError.notImplementedError := by
  unfold chatExecute
  rw [if_neg hg]
  dsimp only
  split
  · simp
  · split
    · next e heq =>
      have he := set_usage_error_eq _ _ heq
      subst he
      simp
    · split
      · simp
      · simp

theorem completionExecute_else_error (allows_system_prompt : Bool) (prompt : Prompt)
    (conversation : Option Conversation) (default_max_tokens : Option JVal)
    (streamChunks : List CompletionChunk)
    (hg : ¬pyTruthyOptStr prompt.system = true) :
    (completionExecute allows_system_prompt prompt conversation default_max_tokens
        streamChunks).error ≠ some ExecError.notImplementedError := by
  unfold completionExecute
  rw [if_neg hg]
  dsimp only
  split
  · simp [emptyOutcome]
  · split
    · simp [emptyOutcome]
    · simp [emptyOutcome]

theorem dlookup_append_left_none (a b : List (String × JVal)) (k : String)
    (h : dlookup a k = none) : dlookup (a ++ b) k = dlookup b k := by
  induction a with
  | nil => simp
  | cons hd tl ih =>
    obtain ⟨k₁, v₁⟩ := hd
    by_cases hk : k₁ = k <;> simp_all [dlookup]

theorem dlookup_append_left_some (a b : List (String × JVal)) (k : String) (v : JVal)
    (h : dlookup a k = some v) : dlookup (a ++ b) k = some v := by
  induction a with
  | nil => simp [dlookup] at h
  | cons hd tl ih =>
    obtain ⟨k₁, v₁⟩ := hd
    by_cases hk : k₁ = k <;> simp_all [dlookup]

theorem hasKey_append (a b : List (String × JVal)) (k : String) :
    hasKey (a ++ b) k = (hasKey a k || hasKey b k) := by
  induction a with
  | nil => simp [hasKey]
  | cons hd tl ih =>
    obtain ⟨k₁, v₁⟩ := hd
    simp [hasKey, ih, Bool.or_assoc]

theorem dlookup_optEntry_self (k : String) (v : Option JVal) :
    dlookup (optEntry k v) k = v := by
  cases v <;> simp [optEntry, dlookup]

theorem dlookup_optEntry_ne (k k' : String) (v : Option JVal) (h : k' ≠ k) :
    dlookup (optEntry k v) k' = none := by
  cases v <;> simp [optEntry, dlookup, Ne.symm h]

theorem hasKey_optEntry (k k' : String) (v : Option JVal) :
    hasKey (optEntry k v) k' = (decide (k = k') && v.isSome) := by
  cases v <;> by_cases h : k = k' <;> simp_all [optEntry, hasKey]

theorem dlookup_dremove_ne (l : List (String × JVal)) (k k' : String) (h : k' ≠ k) :
    dlookup (dremove l k) k' = dlookup l k' := by
  induction l with
  | nil => simp [dremove]
  | cons hd tl ih =>
    obtain ⟨k₁, v₁⟩ := hd
    by_cases h₁ : k₁ = k <;> by_cases h₂ : k₁ = k' <;>
      simp_all [dremove, dlookup]

theorem hasKey_dremove_ne (l : List (String × JVal)) (k k' : String) (h : k' ≠ k) :
    hasKey (dremove l k) k' = hasKey l k' := by
  induction l with
  | nil => simp [dremove]
  | cons hd tl ih =>
    obtain ⟨k₁, v₁⟩ := hd
    by_cases h₁ : k₁ = k <;> by_cases h₂ : k₁ = k' <;>
      simp_all [dremove, hasKey]

theorem dremove_append_left_none (a b : List (String × JVal)) (k : String)
    (h : hasKey a k = false) : dremove (a ++ b) k = a ++ dremove b k := by
  induction a with
  | nil => simp
  | cons hd tl ih =>
    obtain ⟨k₁, v₁⟩ := hd
    simp only [hasKey, Bool.or_eq_false_iff, decide_eq_false_iff_not] at h
    simp [dremove, h.1, ih h.2]

theorem dremove_optEntry_self (k : String) (v : Option JVal) :
    dremove (optEntry k v) k = [] := by
  cases v <;> simp [optEntry, dremove]

theorem dlookup_not_nulls_temperature (o : ChatOptionsRec) :
    dlookup (not_nulls o) "temperature" = o.temperature := by
  cases h : o.temperature <;>
    simp [not_nulls, List.append_assoc, h,
      dlookup_append_left_none, dlookup_append_left_some,
      dlookup_optEntry_ne, dlookup_optEntry_self]

theorem dlookup_not_nulls_max_tokens (o : ChatOptionsRec) :
    dlookup (not_nulls o) "max_tokens" = o.max_tokens := by
  cases h : o.max_tokens <;>
    simp [not_nulls, List.append_assoc, h,
      dlookup_append_left_none, dlookup_append_left_some,
      dlookup_optEntry_ne, dlookup_optEntry_self]

theorem dlookup_not_nulls_top_p (o : ChatOptionsRec) :
    dlookup (not_nulls o) "top_p" = o.top_p := by
  cases h : o.top_p <;>
    simp [not_nulls, List.append_assoc, h,
      dlookup_append_left_none, dlookup_append_left_some,
      dlookup_optEntry_ne, dlookup_optEntry_self]

theorem dlookup_not_nulls_frequency_penalty (o : ChatOptionsRec) :
    dlookup (not_nulls o) "frequency_penalty" = o.frequency_penalty := by
  cases h : o.frequency_penalty <;>
    simp [not_nulls, List.append_assoc, h,
      dlookup_append_left_none, dlookup_append_left_some,
      dlookup_optEntry_ne, dlookup_optEntry_self]

theorem dlookup_not_nulls_presence_penalty (o : ChatOptionsRec) :
    dlookup (not_nulls o) "presence_penalty" = o.presence_penalty := by
  cases h : o.presence_penalty <;>
    simp [not_nulls, List.append_assoc, h,
      dlookup_append_left_none, dlookup_append_left_some,
      dlookup_optEntry_ne, dlookup_optEntry_self]

theorem dlookup_not_nulls_stop (o : ChatOptionsRec) :
    dlookup (not_nulls o) "stop" = o.stop := by
  cases h : o.stop <;>
    simp [not_nulls, List.append_assoc, h,
      dlookup_append_left_none, dlookup_append_left_some,
      dlookup_optEntry_ne, dlookup_optEntry_self]

theorem dlookup_not_nulls_logit_bias (o : ChatOptionsRec) :
    dlookup (not_nulls o) "logit_bias" = o.logit_bias := by
  cases h : o.logit_bias <;>
    simp [not_nulls, List.append_assoc, h,
      dlookup_append_left_none, dlookup_append_left_some,
      dlookup_optEntry_ne, dlookup_optEntry_self]

theorem dlookup_not_nulls_seed (o : ChatOptionsRec) :
    dlookup (not_nulls o) "seed" = o.seed := by
  cases h : o.seed <;>
    simp [not_nulls, List.append_assoc, h,
      dlookup_append_left_none, dlookup_append_left_some,
      dlookup_optEntry_ne, dlookup_optEntry_self]

theorem dlookup_not_nulls_json_object (o : ChatOptionsRec) :
    dlookup (not_nulls o) "json_object" = o.json_object.map jbool := by
  cases h : o.json_object <;>
    simp [not_nulls, List.append_assoc, h,
      dlookup_append_left_none, dlookup_append_left_some,
      dlookup_optEntry_ne, dlookup_optEntry_self]

theorem dlookup_not_nulls_stream_options (o : ChatOptionsRec) :
    dlookup (not_nulls o) "stream_options" = none := by
  simp [not_nulls, List.append_assoc, dlookup_append_left_none, dlookup_optEntry_ne]

theorem hasKey_not_nulls_max_tokens (o : ChatOptionsRec) :
    hasKey (not_nulls o) "max_tokens" = o.max_tokens.isSome := by
  simp [not_nulls, hasKey_append, hasKey_optEntry]

theorem hasKey_dremove_not_nulls_json_object (o : ChatOptionsRec) :
    hasKey (dremove (not_nulls o) "json_object") "json_object" = false := by
  rw [not_nulls,
    dremove_append_left_none _ _ _ (by simp [hasKey_append, hasKey_optEntry]),
    dremove_optEntry_self]
  simp [hasKey_append, hasKey_optEntry]

theorem dlookup_build_kwargs_passthrough (o : ChatOptionsRec) (schema : Option JVal)
    (tools : List ToolDecl) (dmt : Option JVal) (stream : Bool) (k : String)
    (h1 : k ≠ "response_format") (h2 : k ≠ "tools") (h3 : k ≠ "stream_options")
    (h4 : k ≠ "max_tokens") (h5 : k ≠ "json_object") :
    dlookup (build_kwargs o schema tools dmt stream) k = dlookup (not_nulls o) k := by
  unfold build_kwargs
  dsimp only
  repeat' split
  all_goals simp [dlookup_dset_ne, dlookup_dremove_ne, h1, h2, h3, h4, h5]

theorem hasKey_build_kwargs_json_object (o : ChatOptionsRec) (schema : Option JVal)
    (tools : List ToolDecl) (dmt : Option JVal) (stream : Bool) :
    hasKey (build_kwargs o schema tools dmt stream) "json_object" = false := by
  unfold build_kwargs
  dsimp only
  repeat' split
  all_goals simp [hasKey_dset, hasKey_dremove_not_nulls_json_object]

theorem dlookup_build_kwargs_max_tokens (o : ChatOptionsRec) (schema : Option JVal)
    (tools : List ToolDecl) (dmt : Option JVal) (stream : Bool) :
    dlookup (build_kwargs o schema tools dmt stream) "max_tokens"
      = (match o.max_tokens with
         | some v => some v
         | none => dmt) := by
  cases hmt : o.max_tokens with
  | some v =>
    unfold build_kwargs
    dsimp only
    repeat' split
    all_goals
      simp_all [dlookup_dset_ne, dlookup_dset_self, dlookup_dremove_ne,
        hasKey_dremove_ne, hasKey_not_nulls_max_tokens, dlookup_not_nulls_max_tokens]
  | none =>
    unfold build_kwargs
    dsimp only
    repeat' split
    all_goals
      simp_all [dlookup_dset_ne, dlookup_dset_self, dlookup_dremove_ne,
        hasKey_dremove_ne, hasKey_not_nulls_max_tokens, dlookup_not_nulls_max_tokens]

theorem dlookup_build_kwargs_stream_options (o : ChatOptionsRec) (schema : Option JVal)
    (tools : List ToolDecl) (dmt : Option JVal) (stream : Bool) :
    dlookup (build_kwargs o schema tools dmt stream) "stream_options"
      = (if stream then some (jobj [("include_usage", jbool true)]) else none) := by
  cases stream with
  | true =>
    unfold build_kwargs
    dsimp only
    simp [dlookup_dset_self]
  | false =>
    unfold build_kwargs
    dsimp only
    simp only [Bool.false_eq_true, if_false]
    repeat' split
    all_goals
      simp [dlookup_dset_ne, dlookup_dremove_ne, dlookup_not_nulls_stream_options]

theorem dlookup_build_kwargs_response_format_schema (o : ChatOptionsRec) (sc : JVal)
    (tools : List ToolDecl) (dmt : Option JVal) (stream : Bool)
    (hsc : pyTruthy sc = true) :
    dlookup (build_kwargs o (some sc) tools dmt stream) "response_format"
      = some (jobj [("type", jstr "json_schema"),
          ("json_schema", jobj [("name", jstr "output"), ("schema", sc)])]) := by
  unfold build_kwargs
  dsimp only
  repeat' split
  all_goals simp_all [dlookup_dset_self, dlookup_dset_ne]

/-! Support for claim C9: the sync and async per-chunk steps compute the same
state (the async loop merely checks usage twice), and the executors agree
whenever tool-call finalization succeeds. -/

theorem syncChunkStep_eq_asyncChunkStep : syncChunkStep = asyncChunkStep := by
  funext st chunk
  unfold syncChunkStep asyncChunkStep
  by_cases hu : chunk.usage.isSome = true <;> simp [hu]

def exceptIsOk : Except (List LToolCall) (List LToolCall) → Bool
  | .ok _ => true
  | .error _ => false

theorem exceptIsOk_error (e : List LToolCall)
    (h : exceptIsOk (Except.error e) = true) : False := by
  simp [exceptIsOk] at h

/-! Support for claim C4: a successful redaction of the
`{"messages": messages}` wrapper always has the messages-list shape, so the
attached `prompt_json` and the mutated live list coincide. -/

theorem redact_messages_shape (messages : List JVal) (rd : JVal)
    (h : redact_data (jobj [("messages", jarr messages)]) = some rd) :
    ∃ l, rd = jobj [("messages", jarr l)] := by
  simp only [redact_data] at h
  cases hf : redactFields [("messages", jarr messages)] with
  | none => rw [hf] at h; simp at h
  | some kvs =>
    rw [hf] at h
    simp only [Option.map_some', Option.some.injEq] at h
    subst h
    rw [redactFields_cons] at hf
    have hfield : redactField "messages" (jarr messages) = redact_data (jarr messages) := by
      simp [redactField]
    rw [hfield] at hf
    simp only [redact_data] at hf
    cases hl : redactList messages with
    | none => rw [hl] at hf; simp at hf
    | some l =>
      rw [hl] at hf
      simp only [Option.map_some', redactFields] at hf
      simp only [Option.some.injEq] at hf
      exact ⟨l, by rw [← hf]⟩

theorem messagesOfRedacted_shape (l : List JVal) :
    messagesOfRedacted (jobj [("messages", jarr l)]) = some l := by
  simp [messagesOfRedacted, dlookup]

/-! Concrete inputs used by the claim counterexamples and witnesses. -/

def basePrompt : Prompt := {}

def c1delta : DeltaToolCall :=
  { index := 0, id := some "call_0",
    function := { name := some "get_weather", arguments := some "[1]" } }

def c1chunk : ChatChunk := { choices := [{ delta := { tool_calls := some [c1delta] } }] }

def c2chunk : ChatChunk :=
  { choices := [{ delta := { tool_calls := some [
      { index := 0, id := some "call_1",
        function := { name := some "f", arguments := none } },
      { index := 0, id := none,
        function := { name := none, arguments := some "x" } }] } }] }

def c3chunkOf (content : Option String) : ChatChunk :=
  { choices := [{ delta := { content := content } }] }

def c3usageChunk : ChatChunk :=
  { choices := [],
    usage := some [("prompt_tokens", jnum "5"), ("completion_tokens", jnum "2"),
      ("total_tokens", jnum "7")] }

def c3run : ExecOutcome :=
  chatExecute true basePrompt none
    [c3chunkOf (some "Hel"), c3chunkOf (some "lo"), c3chunkOf (some ""), c3usageChunk]

def c4prompt : Prompt :=
  { prompt := some "describe",
    attachments :=
      [{ url := none, resolve_type := "image/png", base64_content := "AAAA", aid := "a1" }] }

def c4run : ExecOutcome := chatExecute true c4prompt none []

/-- C1: the claim says the finalized arguments string for each index is the
concatenation, in arrival order, of exactly the argument-delta fragments for
that index, each contributing once.  The code stores the first fragment's
delta object by reference and then runs the unconditional `+=` on that very
object, so the first fragment's arguments are appended to themselves: a
single fragment with arguments `[1]` finalizes to `[1][1]`, which no longer
parses, and the executor raises a JSON decode error at finalization — as the
code's own comment (line 710) and the spec both show was not intended. -/
theorem C1_first_fragment_doubled :
    [c1delta].foldl toolDeltaStep []
      = [(0, { id := some "call_0", name := some "get_weather", arguments := "[1][1]" })]
    ∧ "[1][1]" ≠ "[1]"
    ∧ json_loads "[1][1]" = none
    ∧ (chatExecute true basePrompt none [c1chunk]).error = some ExecError.jsonDecodeError := by
  decide

/-- C2 counterexample: a stream accumulates the non-empty malformed buffer
`x` at index 0; the claim says the executor exposes an empty structured
object for it, but the execution raises at `json.loads` and exposes no tool
call at all. -/
theorem C2_counterexample :
    (([c2chunk].foldl syncChunkStep initialStreamState).tool_calls
      = [(0, { id := some "call_1", name := some "f", arguments := "x" })])
    ∧ finalize_arguments "x" = none
    ∧ (chatExecute true basePrompt none [c2chunk]).error = some ExecError.jsonDecodeError
    ∧ (chatExecute true basePrompt none [c2chunk]).tool_calls = [] := by
  decide

/-- C2 (amended): at finalization only an *empty* arguments buffer is
replaced by the empty-object literal (parsing to the empty object); a
non-empty buffer is parsed as-is, so a non-empty malformed buffer raises a
JSON decode error instead of degrading to an empty object. -/
theorem C2_empty_buffer_defaults (arguments : String) :
    (arguments = "" → finalize_arguments arguments = some (jobj []))
    ∧ (arguments ≠ "" → finalize_arguments arguments = json_loads arguments) := by
  constructor
  · intro h; subst h; decide
  · intro h
    simp [finalize_arguments, pyOrStr, String.isEmpty_iff, h]

theorem C2_empty_buffer_defaults_witness :
    (("" : String) = "" ∧ finalize_arguments "" = some (jobj []))
    ∧ (("x" : String) ≠ "" ∧ finalize_arguments "x" = json_loads "x") :=
  ⟨⟨rfl, (C2_empty_buffer_defaults "").1 rfl⟩,
   ⟨by decide, (C2_empty_buffer_defaults "x").2 (by decide)⟩⟩

/-- C3 counterexample: the scenario's third fragment carries the content
delta `""`, which is not `None` and hence is yielded as well — the emitted
sequence is `["Hel", "lo", ""]`, not `["Hel", "lo"]` as claimed. -/
theorem C3_counterexample :
    c3run.emitted = ["Hel", "lo", ""] ∧ c3run.emitted ≠ ["Hel", "lo"] := by
  decide

/-- C3 (amended): in the scenario the executor emits `["Hel", "lo", ""]`
(the empty delta included, since only `None` deltas are skipped), the
combined record's content is `"Hello"`, and the normalized usage is input 5,
output 2 with empty details. -/
theorem C3_scenario :
    c3run.emitted = ["Hel", "lo", ""]
    ∧ c3run.response_json = some (jobj [("content", jstr "Hello"),
        ("usage", jobj [("prompt_tokens", jnum "5"), ("completion_tokens", jnum "2"),
          ("total_tokens", jnum "7")])])
    ∧ c3run.usage = some { input := jnum "5", output := jnum "2", details := [] } := by
  decide

/-- C4 counterexample: redaction happens in place, not on a deep copy —
after the redacted request is attached, the live message list that was
passed to the transport no longer holds the original base64 data URL but the
placeholder. -/
theorem C4_counterexample :
    build_messages c4prompt none
      = [jobj [("role", jstr "user"), ("content", jarr
          [jobj [("type", jstr "text"), ("text", jstr "describe")],
           jobj [("type", jstr "image_url"),
             ("image_url", jobj [("url", jstr "data:image/png;base64,AAAA")])]])]]
    ∧ c4run.error = none
    ∧ c4run.messagesAfter ≠ some (build_messages c4prompt none)
    ∧ c4run.messagesAfter
      = some [jobj [("role", jstr "user"), ("content", jarr
          [jobj [("type", jstr "text"), ("text", jstr "describe")],
           jobj [("type", jstr "image_url"),
             ("image_url", jobj [("url", jstr "data:...")])]])]] := by
  decide

/-- C4 (amended): redaction operates in place on the shared structures: on
every successful execution the attached redacted request and the live
message list alias, so the live list equals the messages component of the
persisted copy (redacted, not the original). -/
theorem C4_redaction_shares_live_messages (allows_system_prompt : Bool) (prompt : Prompt)
    (conversation : Option Conversation) (streamChunks : List ChatChunk)
    (h : (chatExecute allows_system_prompt prompt conversation streamChunks).error = none) :
    (chatExecute allows_system_prompt prompt conversation streamChunks).prompt_json
      = ((chatExecute allows_system_prompt prompt conversation
            streamChunks).messagesAfter).map
          (fun l => jobj [("messages", jarr l)]) := by
  unfold chatExecute at h ⊢
  by_cases hg : pyTruthyOptStr prompt.system = true ∧ ¬allows_system_prompt = true
  · rw [if_pos hg] at h
    simp [emptyOutcome] at h
  · rw [if_neg hg] at h ⊢
    dsimp only at h ⊢
    split
    · next added heq =>
      simp only [heq] at h
      simp [emptyOutcome] at h
    · next calls heq =>
      simp only [heq] at h
      split
      · next e heq2 =>
        simp only [heq2] at h
        simp [emptyOutcome] at h
      · next u heq2 =>
        simp only [heq2] at h
        split
        · next heq3 =>
          simp only [heq3] at h
          simp [emptyOutcome] at h
        · next rd heq3 =>
          obtain ⟨l, rfl⟩ := redact_messages_shape _ rd heq3
          simp [messagesOfRedacted_shape]

theorem C4_redaction_shares_live_messages_witness :
    c4run.error = none
    ∧ c4run.prompt_json
        = (c4run.messagesAfter).map (fun l => jobj [("messages", jarr l)]) :=
  ⟨by decide, C4_redaction_shares_live_messages true c4prompt none [] (by decide)⟩

/-- C5: whenever redaction returns (it raises only on a non-string
`image_url.url`), it is idempotent — redacting the result again is a no-op —
and the result differs from the input only at redactable fields: nulling out
exactly the data-URL `image_url.url` values and the `input_audio.data`
values on both sides (`maskSensitive`) yields identical structures, so every
other key, value and ordering is preserved exactly. -/
theorem C5_redact_idempotent_confined (x y : JVal) (h : redact_data x = some y) :
    redact_data y = some y ∧ maskSensitive y = maskSensitive x :=
  redact_data_good x y h

theorem C5_redact_idempotent_confined_witness :
    redact_data (jobj [("image_url", jobj [("url", jstr "data:abc")]),
        ("input_audio", jobj [("data", jstr "zz"), ("format", jstr "mp3")]),
        ("note", jstr "kept")])
      = some (jobj [("image_url", jobj [("url", jstr "data:...")]),
          ("input_audio", jobj [("data", jstr "..."), ("format", jstr "mp3")]),
          ("note", jstr "kept")])
    ∧ (redact_data (jobj [("image_url", jobj [("url", jstr "data:...")]),
          ("input_audio", jobj [("data", jstr "..."), ("format", jstr "mp3")]),
          ("note", jstr "kept")])
        = some (jobj [("image_url", jobj [("url", jstr "data:...")]),
            ("input_audio", jobj [("data", jstr "..."), ("format", jstr "mp3")]),
            ("note", jstr "kept")])
      ∧ maskSensitive (jobj [("image_url", jobj [("url", jstr "data:...")]),
            ("input_audio", jobj [("data", jstr "..."), ("format", jstr "mp3")]),
            ("note", jstr "kept")])
        = maskSensitive (jobj [("image_url", jobj [("url", jstr "data:abc")]),
            ("input_audio", jobj [("data", jstr "zz"), ("format", jstr "mp3")]),
            ("note", jstr "kept")])) :=
  ⟨by decide, C5_redact_idempotent_confined _ _ (by decide)⟩

/-- C6: in every message list built from a conversation history and a current
prompt, the system-message texts never repeat consecutively: a system
message is emitted only when its text differs from the most recently emitted
system text, including the deduplication of the current prompt's system text
against the history's last emitted one. -/
theorem C6_no_consecutive_duplicate_system (prompt : Prompt)
    (conversation : Option Conversation) :
    List.Chain' (fun a b => a ≠ b) (systemTextsOf (build_messages prompt conversation)) := by
  obtain ⟨c, hc⟩ := build_messages_sysInv prompt conversation
  exact hc.1

/-- C7: `Chat.execute` raises `NotImplementedError` exactly when the
prompt's system text is truthy and the model forbids system prompts, and it
does so before building messages or touching the transport (the outcome is
the empty one, independent of the delivered chunks); `Completion.execute`
raises the same error for any truthy system text, regardless of the
capability flag. -/
theorem C7_unsupported_system_guard (allows_system_prompt : Bool) (prompt : Prompt)
    (conversation : Option Conversation) (streamChunks : List ChatChunk)
    (completionChunks : List CompletionChunk) (default_max_tokens : Option JVal) :
    ((chatExecute allows_system_prompt prompt conversation streamChunks).error
        = some ExecError.notImplementedError
      ↔ (pyTruthyOptStr prompt.system = true ∧ allows_system_prompt = false))
    ∧ (pyTruthyOptStr prompt.system = true → allows_system_prompt = false →
        chatExecute allows_system_prompt prompt conversation streamChunks
          = { emptyOutcome with error := some ExecError.notImplementedError })
    ∧ ((completionExecute allows_system_prompt prompt conversation default_max_tokens
          completionChunks).error = some ExecError.notImplementedError
      ↔ pyTruthyOptStr prompt.system = true) := by
  refine ⟨⟨?_, ?_⟩, ?_, ?_, ?_⟩
  · intro h
    by_cases hg : pyTruthyOptStr prompt.system = true ∧ ¬allows_system_prompt = true
    · exact ⟨hg.1, by simpa using hg.2⟩
    · exact absurd h (chatExecute_else_error _ _ _ _ hg)
  · rintro ⟨h1, h2⟩
    subst h2
    unfold chatExecute
    rw [if_pos ⟨h1, by simp⟩]
  · intro h1 h2
    subst h2
    unfold chatExecute
    rw [if_pos ⟨h1, by simp⟩]
  · intro h
    by_cases hg : pyTruthyOptStr prompt.system = true
    · exact hg
    · exact absurd h (completionExecute_else_error _ _ _ _ _ hg)
  · intro h1
    unfold completionExecute
    rw [if_pos h1]

theorem C7_unsupported_system_guard_witness :
    pyTruthyOptStr (some "be brief") = true
    ∧ chatExecute false { system := some "be brief" } none []
        = { emptyOutcome with error := some ExecError.notImplementedError }
    ∧ (completionExecute true { system := some "be brief" } none none []).error
        = some ExecError.notImplementedError :=
  ⟨by decide,
   (C7_unsupported_system_guard false { system := some "be brief" } none [] [] none).2.1
     (by decide) rfl,
   (C7_unsupported_system_guard true { system := some "be brief" } none [] [] none).2.2.mpr
     (by decide)⟩

/-- C8: the parameter builder copies every non-null option verbatim except
`json_object` (which never appears in the result); takes `max_tokens` from
the model default only when the caller supplied none; when both
`json_object` is true and a truthy schema is supplied, the resulting
`response_format` is the JSON-schema constraint (schema wins); and it sets
the include-usage stream option exactly when streaming. -/
theorem C8_build_kwargs_contract (options : ChatOptionsRec) (schema : Option JVal)
    (tools : List ToolDecl) (default_max_tokens : Option JVal) (stream : Bool) :
    (∀ v, options.temperature = some v →
      dlookup (build_kwargs options schema tools default_max_tokens stream)
        "temperature" = some v)
    ∧ (∀ v, options.top_p = some v →
      dlookup (build_kwargs options schema tools default_max_tokens stream)
        "top_p" = some v)
    ∧ (∀ v, options.frequency_penalty = some v →
      dlookup (build_kwargs options schema tools default_max_tokens stream)
        "frequency_penalty" = some v)
    ∧ (∀ v, options.presence_penalty = some v →
      dlookup (build_kwargs options schema tools default_max_tokens stream)
        "presence_penalty" = some v)
    ∧ (∀ v, options.stop = some v →
      dlookup (build_kwargs options schema tools default_max_tokens stream)
        "stop" = some v)
    ∧ (∀ v, options.logit_bias = some v →
      dlookup (build_kwargs options schema tools default_max_tokens stream)
        "logit_bias" = some v)
    ∧ (∀ v, options.seed = some v →
      dlookup (build_kwargs options schema tools default_max_tokens stream)
        "seed" = some v)
    ∧ hasKey (build_kwargs options schema tools default_max_tokens stream)
        "json_object" = false
    ∧ dlookup (build_kwargs options schema tools default_max_tokens stream)
        "max_tokens"
        = (match options.max_tokens with
           | some v => some v
           | none => default_max_tokens)
    ∧ (options.json_object = some true → ∀ sc, schema = some sc →
        pyTruthy sc = true →
        dlookup (build_kwargs options schema tools default_max_tokens stream)
          "response_format"
          = some (jobj [("type", jstr "json_schema"),
              ("json_schema", jobj [("name", jstr "output"), ("schema", sc)])]))
    ∧ dlookup (build_kwargs options schema tools default_max_tokens stream)
        "stream_options"
        = (if stream then some (jobj [("include_usage", jbool true)]) else none) := by
  refine ⟨?_, ?_, ?_, ?_, ?_, ?_, ?_, ?_, ?_, ?_, ?_⟩
  · intro v hv
    rw [dlookup_build_kwargs_passthrough options schema tools default_max_tokens stream
      "temperature" (by decide) (by decide) (by decide) (by decide) (by decide)]
    rw [dlookup_not_nulls_temperature, hv]
  · intro v hv
    rw [dlookup_build_kwargs_passthrough options schema tools default_max_tokens stream
      "top_p" (by decide) (by decide) (by decide) (by decide) (by decide)]
    rw [dlookup_not_nulls_top_p, hv]
  · intro v hv
    rw [dlookup_build_kwargs_passthrough options schema tools default_max_tokens stream
      "frequency_penalty" (by decide) (by decide) (by decide) (by decide) (by decide)]
    rw [dlookup_not_nulls_frequency_penalty, hv]
  · intro v hv
    rw [dlookup_build_kwargs_passthrough options schema tools default_max_tokens stream
      "presence_penalty" (by decide) (by decide) (by decide) (by decide) (by decide)]
    rw [dlookup_not_nulls_presence_penalty, hv]
  · intro v hv
    rw [dlookup_build_kwargs_passthrough options schema tools default_max_tokens stream
      "stop" (by decide) (by decide) (by decide) (by decide) (by decide)]
    rw [dlookup_not_nulls_stop, hv]
  · intro v hv
    rw [dlookup_build_kwargs_passthrough options schema tools default_max_tokens stream
      "logit_bias" (by decide) (by decide) (by decide) (by decide) (by decide)]
    rw [dlookup_not_nulls_logit_bias, hv]
  · intro v hv
    rw [dlookup_build_kwargs_passthrough options schema tools default_max_tokens stream
      "seed" (by decide) (by decide) (by decide) (by decide) (by decide)]
    rw [dlookup_not_nulls_seed, hv]
  · exact hasKey_build_kwargs_json_object options schema tools default_max_tokens stream
  · exact dlookup_build_kwargs_max_tokens options schema tools default_max_tokens stream
  · intro _ sc hsc hts
    subst hsc
    exact dlookup_build_kwargs_response_format_schema options sc tools
      default_max_tokens stream hts
  · exact dlookup_build_kwargs_stream_options options schema tools default_max_tokens stream

def c8opts : ChatOptionsRec :=
  { temperature := some (jnum "1"), max_tokens := some (jnum "100"),
    top_p := some (jnum "1"), frequency_penalty := some (jnum "0.5"),
    presence_penalty := some (jnum "0.5"), stop := some (jstr "END"),
    logit_bias := some (jobj [("17", jnum "-5")]), seed := some (jnum "42"),
    json_object := some true }

def c8schema : JVal := jobj [("type", jstr "object")]

theorem C8_build_kwargs_contract_witness :
    (c8opts.temperature = some (jnum "1")
      ∧ dlookup (build_kwargs c8opts (some c8schema) [] none true) "temperature"
          = some (jnum "1"))
    ∧ (c8opts.json_object = some true
      ∧ (some c8schema : Option JVal) = some c8schema
      ∧ pyTruthy c8schema = true
      ∧ dlookup (build_kwargs c8opts (some c8schema) [] none true) "response_format"
          = some (jobj [("type", jstr "json_schema"),
              ("json_schema", jobj [("name", jstr "output"), ("schema", c8schema)])])) :=
  ⟨⟨by decide, (C8_build_kwargs_contract c8opts (some c8schema) [] none true).1 _ (by decide)⟩,
   ⟨by decide, rfl, by decide,
    (C8_build_kwargs_contract c8opts (some c8schema) [] none true).2.2.2.2.2.2.2.2.2.1
      (by decide) c8schema rfl (by decide)⟩⟩

/-- C9 counterexample: on a stream whose only finalized tool-call buffer
fails to parse, the sync executor has already attached `response_json` when
the finalization raises, while the async executor raises before attaching
it — the observable outcomes differ. -/
theorem C9_counterexample :
    chatExecute true basePrompt none [c2chunk]
        ≠ asyncChatExecute true basePrompt none [c2chunk]
    ∧ (chatExecute true basePrompt none [c2chunk]).response_json ≠ none
    ∧ (asyncChatExecute true basePrompt none [c2chunk]).response_json = none := by
  decide

/-- C9 (amended): whenever tool-call finalization succeeds (every
accumulated argument buffer parses, or there are none), the sync and async
chat executors produce identical outcomes — same emitted fragments,
response_json, tool calls, usage and redacted request; they differ only on
the finalization-error path, where the sync variant has already attached
`response_json` and the async one has not. -/
theorem C9_sync_async_agree (allows_system_prompt : Bool) (prompt : Prompt)
    (conversation : Option Conversation) (streamChunks : List ChatChunk)
    (h : exceptIsOk (addToolCalls []
        ((streamChunks.foldl syncChunkStep initialStreamState).tool_calls)) = true) :
    chatExecute allows_system_prompt prompt conversation streamChunks
      = asyncChatExecute allows_system_prompt prompt conversation streamChunks := by
  rw [syncChunkStep_eq_asyncChunkStep] at h
  unfold chatExecute asyncChatExecute
  rw [syncChunkStep_eq_asyncChunkStep]
  by_cases hg : pyTruthyOptStr prompt.system = true ∧ ¬allows_system_prompt = true
  · rw [if_pos hg, if_pos hg]
  · rw [if_neg hg, if_neg hg]
    dsimp only
    cases hadd : addToolCalls []
        ((streamChunks.foldl asyncChunkStep initialStreamState).tool_calls) with
    | error e =>
      rw [hadd] at h
      exact absurd h (by simp [exceptIsOk])
    | ok calls =>
      rfl

theorem C9_sync_async_agree_witness :
    exceptIsOk (addToolCalls []
        (([c3chunkOf (some "hi")].foldl syncChunkStep initialStreamState).tool_calls)) = true
    ∧ chatExecute true basePrompt none [c3chunkOf (some "hi")]
        = asyncChatExecute true basePrompt none [c3chunkOf (some "hi")] :=
  ⟨by decide,
   C9_sync_async_agree true basePrompt none [c3chunkOf (some "hi")] (by decide)⟩

/-- C10: the usage normalizer sets nothing for an absent or empty snapshot,
and for every non-empty snapshot it requires all three counters
`prompt_tokens`, `completion_tokens` and `total_tokens`: it raises
`KeyError` exactly when any of the three is missing. -/
theorem C10_set_usage_requires_counters (u : List (String × JVal)) (hne : u ≠ []) :
    set_usage none = .ok none
    ∧ set_usage (some []) = .ok none
    ∧ (set_usage (some u) = Except.error ExecError.keyError
        ↔ (hasKey u "prompt_tokens" = false ∨ hasKey u "completion_tokens" = false
            ∨ hasKey u "total_tokens" = false)) := by
  refine ⟨rfl, rfl, ?_⟩
  have hne' : u.isEmpty = false := by simpa [List.isEmpty_iff] using hne
  cases h1 : dpop u "prompt_tokens" with
  | none =>
    have hk1 := (dpop_eq_none_iff u "prompt_tokens").mp h1
    simp [set_usage, hne', h1, hk1]
  | some p1 =>
    obtain ⟨v1, r1⟩ := p1
    have hk1 : hasKey u "prompt_tokens" = true := by
      by_contra hc
      rw [Bool.not_eq_true] at hc
      rw [← dpop_eq_none_iff] at hc
      rw [h1] at hc
      exact Option.noConfusion hc
    cases h2 : dpop r1 "completion_tokens" with
    | none =>
      have hk2 := (dpop_eq_none_iff r1 "completion_tokens").mp h2
      rw [hasKey_dpop_ne u "prompt_tokens" "completion_tokens" v1 r1 h1 (by decide)] at hk2
      simp [set_usage, hne', h1, h2, hk1, hk2]
    | some p2 =>
      obtain ⟨v2, r2⟩ := p2
      have hk2 : hasKey u "completion_tokens" = true := by
        by_contra hc
        rw [Bool.not_eq_true] at hc
        rw [← hasKey_dpop_ne u "prompt_tokens" "completion_tokens" v1 r1 h1 (by decide)] at hc
        rw [← dpop_eq_none_iff] at hc
        rw [h2] at hc
        exact Option.noConfusion hc
      cases h3 : dpop r2 "total_tokens" with
      | none =>
        have hk3 := (dpop_eq_none_iff r2 "total_tokens").mp h3
        rw [hasKey_dpop_ne r1 "completion_tokens" "total_tokens" v2 r2 h2 (by decide)] at hk3
        rw [hasKey_dpop_ne u "prompt_tokens" "total_tokens" v1 r1 h1 (by decide)] at hk3
        simp [set_usage, hne', h1, h2, h3, hk1, hk2, hk3]
      | some p3 =>
        obtain ⟨v3, r3⟩ := p3
        have hk3 : hasKey u "total_tokens" = true := by
          by_contra hc
          rw [Bool.not_eq_true] at hc
          rw [← hasKey_dpop_ne u "prompt_tokens" "total_tokens" v1 r1 h1 (by decide)] at hc
          rw [← hasKey_dpop_ne r1 "completion_tokens" "total_tokens" v2 r2 h2 (by decide)] at hc
          rw [← dpop_eq_none_iff] at hc
          rw [h3] at hc
          exact Option.noConfusion hc
        simp [set_usage, hne', h1, h2, h3, hk1, hk2, hk3]

theorem C10_set_usage_requires_counters_witness :
    ([("completion_tokens", jnum "2")] : List (String × JVal)) ≠ []
    ∧ (set_usage (some [("completion_tokens", jnum "2")])
          = Except.error ExecError.keyError
        ↔ (hasKey [("completion_tokens", jnum "2")] "prompt_tokens" = false
            ∨ hasKey [("completion_tokens", jnum "2")] "completion_tokens" = false
            ∨ hasKey [("completion_tokens", jnum "2")] "total_tokens" = false)) :=
  ⟨by decide,
   (C10_set_usage_requires_counters [("completion_tokens", jnum "2")] (by decide)).2.2⟩
